import Mathlib

/-!
# go-wechat: tenant directory, inbound gateway and outbound proxy

A shallow embedding of

* `gateway/module/config/config.go` (`GetApp`, `ExistAppID`),
* `gateway/server/server.go` (`checkAppID`, `AcceptGET`, `AcceptPOST`),
* `proxy/server/server.go` (`checkAppID`, `proxy`, `getRedisValue`),

together with the theorems that settle the claims C1 to C10 of the specification.

Conventions of the embedding.

* A Go `string` is a Lean `String`; a Go `error` is the left side of `Except String`.
* A Go pointer `*T` is `Option T`, `none` being `nil`; dereferencing `nil` is the fault
  `Fault.nilDeref`.
* A Go `map[string][]string` (`url.Values`, `http.Header`) is an association list read
  through its first entry for a key; where the code ranges over such a map, the order of
  the list stands for the (unspecified) iteration order.
* Library calls whose result is not computed by this repository (the message crypter, the
  query binder, the envelope parsers, `url.Parse`, `Values.Encode`, the cache client, the
  transport) are fields of an environment record, so every theorem holds for every
  behaviour of the library. The gin context (`Param`, `Status`, `String`, `Abort`, `Next`),
  `url.Values.Set`, `http.Header.Add` and `strings.EqualFold` are written out.
* The response writer is gin's `responseWriter` on top of the `response` of net/http: gin
  stores the status and hands it on at the first write or at the end of the request;
  net/http panics on a status code below 100 or above 999, sends a 1xx code other than
  101 as an interim response, and takes no body for a 1xx, 204 or 304 status.
* A run ends in a context, or in an abnormal end (`Abort`) that keeps the context in which
  the panic happened; `contextOf` reads the context of either.
* Every call with an effect outside the handler appends an `Event` to the trace of the
  context, so that "this call is never made" is a statement about the trace.
-/

set_option autoImplicit false

namespace GoWechat

/-! ## Go run time -/

/-- Abnormal ends of a modelled run: a run-time panic of the Go code, or the recursion
budget of the handler chain being used up. -/
inductive Fault where
  | nilDeref
  | indexOutOfRange
  | invalidWriteHeaderCode
  | outOfFuel
  deriving DecidableEq, Repr

/-- Go `map[string][]string`, as an association list. -/
abbrev StrMap := List (String × List String)

namespace StrMap

/-- Two-valued map read `vs, ok := m[k]`: the first entry stored under `k`. -/
def lookup : StrMap → String → Option (List String)
  | [], _ => none
  | (k', vs) :: m, k => if k' = k then some vs else lookup m k

/-- Map read `m[k]`: the nil slice when the key is absent. -/
def get (m : StrMap) (k : String) : List String :=
  (lookup m k).getD []

/-- The map without any entry for `k`. -/
def erase : StrMap → String → StrMap
  | [], _ => []
  | (k', vs) :: m, k => if k' = k then erase m k else (k', vs) :: erase m k

/-- Map write `m[k] = vs`: the old binding of `k` is dropped. -/
def store (m : StrMap) (k : String) (vs : List String) : StrMap :=
  (k, vs) :: erase m k

/-- The value lists of all the entries stored under `k`, in order (one list for a map). -/
def entries (m : StrMap) (k : String) : List (List String) :=
  (m.filter (fun e => e.1 == k)).map Prod.snd

/-- The entries whose key is none of `ks`, in order. -/
def others (m : StrMap) (ks : List String) : StrMap :=
  m.filter (fun e => !(ks.contains e.1))

/-- Go `url.Values.Set`: `v[key] = []string{value}`. -/
def Set (m : StrMap) (key value : String) : StrMap :=
  store m key [value]

/-- Go `http.Header.Add`: `key = CanonicalMIMEHeaderKey(key); h[key] = append(h[key], value)`.
The canonicalisation is a parameter. -/
def Add (canon : String → String) (h : StrMap) (key value : String) : StrMap :=
  store h (canon key) (get h (canon key) ++ [value])

end StrMap

/-! ## net/http and gin -/

/-- Go `url.URL`, the fields the proxy touches (produced by `url.Parse`). -/
structure URL where
  Scheme : String
  Host : String
  Path : String
  RawQuery : String
  deriving DecidableEq, Repr

/-- Go `http.Request`: method, URL, header, and what reading the body to its end yields
(the bytes, or the read error). -/
structure Request where
  Method : String
  URL : URL
  Header : StrMap
  Body : Except String String

/-- The calls a handler makes to the world outside it, in the order they are made. -/
inductive Event where
  | readBody
  | newCrypter (token aesKey appID : String)
  | getSignature (timestamp nonce msgEncrypt : String)
  | parseXML (bytes : String)
  | parseJSON (bytes : String)
  | decrypt (blob : String)
  | redisGet (key : String)
  | roundTrip (req : Request)

/-- Tells whether an event is a call of the transport. -/
def Event.isRoundTrip : Event → Bool
  | .roundTrip _ => true
  | _ => false

/-- Tells whether an event is a call of `Decrypt`. -/
def Event.isDecrypt : Event → Bool
  | .decrypt _ => true
  | _ => false

/-- Tells whether an event is a call of one of the two envelope parsers. -/
def Event.isParse : Event → Bool
  | .parseXML _ => true
  | .parseJSON _ => true
  | _ => false

namespace Gin

/-- The function `bodyAllowedForStatus`, the same in gin and in net/http: no body for a
1xx status, for 204 and for 304. -/
def bodyAllowedForStatus (status : Int) : Bool :=
  if 100 ≤ status ∧ status ≤ 199 then false
  else if status = 204 then false
  else if status = 304 then false
  else true

/-- The response writer of gin on top of the response of net/http.

* `status` is the status gin has stored (200 until set) and `written` tells whether gin has
  handed it on (`w.size != noWritten`);
* `wroteHeader` and `sent` are net/http's: whether the final status line is out, and its
  code; `informational` lists the interim 1xx responses sent before it;
* `header` is the header map and `body` the bytes net/http has accepted for the body. -/
structure ResponseWriter where
  status : Int := 200
  header : StrMap := []
  body : String := ""
  written : Bool := false
  wroteHeader : Bool := false
  sent : Int := 0
  informational : List Int := []

/-- Method `WriteHeader` of gin's response writer: `if code > 0 && w.status != code` the
status is stored (when the header is already written gin logs a warning as well); a code
that is not positive leaves the status as it is. Nothing goes to net/http yet. -/
def ResponseWriter.WriteHeader (w : ResponseWriter) (code : Int) : ResponseWriter :=
  if 0 < code ∧ w.status ≠ code then { w with status := code } else w

/-- Method `WriteHeader` of the response of net/http: a second call is ignored; a code
below 100 or above 999 panics (`invalid WriteHeader code`); a 1xx code other than 101 is
sent as an interim response and the final header stays open (net/http since Go 1.19); any
other code is the final status. -/
def ResponseWriter.httpWriteHeader (w : ResponseWriter) (code : Int) :
    Except Fault ResponseWriter :=
  if w.wroteHeader then .ok w
  else if code < 100 ∨ 999 < code then .error Fault.invalidWriteHeaderCode
  else if 100 ≤ code ∧ code ≤ 199 ∧ code ≠ 101 then
    .ok { w with informational := w.informational ++ [code] }
  else .ok { w with wroteHeader := true, sent := code }

/-- Method `WriteHeaderNow` of gin's response writer: `if !w.Written()` the size is set to
0 and the stored status is handed to net/http. -/
def ResponseWriter.WriteHeaderNow (w : ResponseWriter) : Except Fault ResponseWriter :=
  if w.written then .ok w
  else ResponseWriter.httpWriteHeader { w with written := true } w.status

/-- Method `Write` of the response of net/http: `WriteHeader(200)` if no final header is
out, nothing more for empty data, `ErrBodyNotAllowed` (nothing written) when the status
allows no body, and otherwise the bytes are appended to the body. The second component
tells whether the write returned an error. No handler here sets `Content-Length`, so the
check of the declared length does not arise; the routes are `GET` and `POST`, so neither
does the empty body of a `HEAD` response; the connection to the client is taken to work. -/
def ResponseWriter.httpWrite (w : ResponseWriter) (data : String) : ResponseWriter × Bool :=
  let w := if w.wroteHeader then w else { w with wroteHeader := true, sent := 200 }
  if data = "" then (w, false)
  else if bodyAllowedForStatus w.sent then ({ w with body := w.body ++ data }, false)
  else (w, true)

/-- Method `Write` of gin's response writer: `w.WriteHeaderNow()`, then the `Write` of
net/http, whose error it returns. -/
def ResponseWriter.Write (w : ResponseWriter) (data : String) :
    Except Fault (ResponseWriter × Bool) :=
  match w.WriteHeaderNow with
  | .error f => .error f
  | .ok w => .ok (w.httpWrite data)

/-- Go `io.Copy(w, body)` onto the response writer: `Write` is called for what is read, so
not at all for an empty body; the error of a refused write ends the copy, and `proxy` drops
the result of `io.Copy`. The body is taken in one piece. -/
def ioCopy (w : ResponseWriter) (body : String) : Except Fault ResponseWriter :=
  if body = "" then .ok w
  else
    match w.Write body with
    | .error f => .error f
    | .ok (w, _) => .ok w

/-- The constant `abortIndex` of gin: `math.MaxInt8 >> 1`. -/
def abortIndex : Int := 63

/-- The gin context: path parameters, request, writer, the handler chain of the matched
route with the index of the running handler, and the trace of outside calls. -/
structure Context (H : Type) where
  Params : List (String × String)
  Request : Request
  Writer : ResponseWriter
  index : Int
  handlers : List H
  trace : List Event

/-- An abnormal end of a run: the fault, and the context as it was when the call that
panicked was made. -/
structure Abort (H : Type) where
  fault : Fault
  ctx : Context H

/-- The outcome of a handler or of a whole request: the context it leaves, or an abnormal
end. -/
abbrev Result (H : Type) := Except (Abort H) (Context H)

variable {H : Type}

/-- The context a run ends in: the one it returns, or the one in which it was cut short. -/
def contextOf : Result H → Context H
  | .ok c => c
  | .error a => a.ctx

/-- Method `Param`: the value of the first path parameter with that key, `""` if none. -/
def Context.Param (c : Context H) (key : String) : String :=
  match c.Params.find? (fun e => decide (e.1 = key)) with
  | some e => e.2
  | none => ""

/-- Method `Status`: `c.Writer.WriteHeader(code)`. -/
def Context.Status (c : Context H) (code : Int) : Context H :=
  { c with Writer := c.Writer.WriteHeader code }

/-- Method `Abort`: `c.index = abortIndex`. -/
def Context.Abort (c : Context H) : Context H :=
  { c with index := abortIndex }

/-- Records an outside call at the end of the trace. -/
def Context.emit (c : Context H) (e : Event) : Context H :=
  { c with trace := c.trace ++ [e] }

/-- The function `writeContentType` of gin: sets `Content-Type` unless it has a value. -/
def writeContentType (w : ResponseWriter) (value : List String) : ResponseWriter :=
  if (StrMap.get w.header "Content-Type").length = 0 then
    { w with header := StrMap.store w.header "Content-Type" value }
  else w

/-- The context with a new writer, or the abnormal end of a write in that context. -/
def Context.withWriter (c : Context H) : Except Fault ResponseWriter → Result H
  | .ok w => .ok { c with Writer := w }
  | .error f => .error { fault := f, ctx := c }

/-- Method `String` of the context, called with a format and no values (`Render`):
`Status(code)`; when the status allows no body, the plain-text content type and
`WriteHeaderNow`; otherwise the content type and `Write` of the format string itself (with
no values `fmt.Fprintf` is not used), and `Abort` when that write returns an error (the
error is also appended to `c.Errors`, which no handler here reads). -/
def Context.String (c : Context H) (code : Int) (format : String) : Result H :=
  let c := c.Status code
  let c := { c with Writer := writeContentType c.Writer ["text/plain; charset=utf-8"] }
  if bodyAllowedForStatus code then
    match c.Writer.Write format with
    | .error f => .error { fault := f, ctx := c }
    | .ok (w, refused) =>
      let c := { c with Writer := w }
      .ok (if refused then c.Abort else c)
  else c.withWriter c.Writer.WriteHeaderNow

mutual
/-- Method `Next`: `c.index++`, then the loop `for c.index < len(c.handlers)` running
`c.handlers[c.index](c)` and `c.index++`. A handler may call `Next` itself, so the
recursion is bounded by a fuel; `handle` gives each handler of the chain its meaning and
receives `Next` as its first argument. A panic of a handler ends the loop. -/
def Next (handle : (Context H → Result H) → H → Context H → Result H) :
    Nat → Context H → Result H
  | 0, c => .error { fault := Fault.outOfFuel, ctx := c }
  | fuel + 1, c => nextLoop handle fuel { c with index := c.index + 1 }
/-- The loop of `Next`. -/
def nextLoop (handle : (Context H → Result H) → H → Context H → Result H) :
    Nat → Context H → Result H
  | 0, c => .error { fault := Fault.outOfFuel, ctx := c }
  | fuel + 1, c =>
    if c.index < (c.handlers.length : Int) then
      if c.index < 0 then .error { fault := Fault.indexOutOfRange, ctx := c }
      else
        match c.handlers.get? c.index.toNat with
        | none => .error { fault := Fault.indexOutOfRange, ctx := c }
        | some h =>
          match handle (Next handle fuel) h c with
          | .error a => .error a
          | .ok c1 => nextLoop handle fuel { c1 with index := c1.index + 1 }
    else .ok c
end

/-- The context of a request whose route is matched, while the handler at `index` runs
and nothing has been written: status 200, empty header and body, empty trace. The engine
starts at index `-1`. -/
def freshContext (chain : List H) (params : List (String × String)) (req : Request)
    (index : Int) : Context H :=
  { Params := params, Request := req, Writer := {}, index := index, handlers := chain,
    trace := [] }

/-- The end of a request: after the chain the engine calls `WriteHeaderNow` on the writer,
and when the handler has returned net/http sends the final header with 200 if none is
out yet (`finishRequest`). -/
def finishRequest (c : Context H) : Result H :=
  match c.Writer.WriteHeaderNow with
  | .error f => .error { fault := f, ctx := c }
  | .ok w =>
    .ok { c with Writer := if w.wroteHeader then w
                          else { w with wroteHeader := true, sent := 200 } }

/-- What the engine does for a request whose route is matched: a fresh context at index
`-1`, `c.Next()` on the chain registered for the route, and the end of the request. -/
def serve (handle : (Context H → Result H) → H → Context H → Result H) (fuel : Nat)
    (chain : List H) (params : List (String × String)) (req : Request) : Result H :=
  match Next handle fuel (freshContext chain params req (-1)) with
  | .error a => .error a
  | .ok c => finishRequest c

end Gin

/-! ## gateway/module/config -/

namespace Gateway

/-- The struct `AppConfig` of gateway/module/config/config.go. -/
structure AppConfig where
  ID : String
  Token : String
  DataType : String
  EncryptionMethod : String
  EncodingAESKey : String
  deriving DecidableEq, Repr

/-- The function `GetApp`: ranges over `Config.Apps` (a `[]*AppConfig`) and returns the first
pointer whose `ID` is `appID`, `nil` when there is none. Reading `v.ID` through a nil entry
panics. -/
def GetApp : List (Option AppConfig) → String → Except Fault (Option AppConfig)
  | [], _ => .ok none
  | none :: _, _ => .error Fault.nilDeref
  | some v :: apps, appID => if v.ID = appID then .ok (some v) else GetApp apps appID

/-- The function `ExistAppID`: the same loop, returning `true` at the first match. -/
def ExistAppID : List (Option AppConfig) → String → Except Fault Bool
  | [], _ => .ok false
  | none :: _, _ => .error Fault.nilDeref
  | some v :: apps, appID => if v.ID = appID then .ok true else ExistAppID apps appID

/-! ## gateway/server -/

/-- Modelled from the spec: the struct `models.WechatRequestModel` (package gateway/models
is not among the sources). The spec's inbound verification request "carries signature,
timestamp, nonce, optional echo payload", read from the query parameters `signature`,
`timestamp`, `nonce`, `echostr`. -/
structure WechatRequestModel where
  Signature : String
  Timestamp : Int
  Nonce : Int
  Echostr : String
  deriving DecidableEq, Repr

/-- Modelled from the spec: the struct `models.AcceptEncryptMessage` (package gateway/models
is not among the sources): "an envelope record containing the ciphertext field". -/
structure AcceptEncryptMessage where
  Encrypt : String
  deriving DecidableEq, Repr

/-- The message crypter of the library wechat-crypter, as the two methods the handlers call:
`GetSignature(timestamp, nonce, msgEncrypt)` and `Decrypt(text)`, which yields the
decrypted bytes and the app id embedded in the message, or an error. -/
structure MessageCrypter where
  GetSignature : String → String → String → String
  Decrypt : String → Except String (String × String)

/-- What the gateway handlers take from outside: the tenant list `config.Config.Apps`, the
query binder `ctx.ShouldBindWith(&model, binding.Query)`, `convert.ToString`, the
constructor `crypter.NewMessageCrypter(token, encodingAESKey, appID)` and the two envelope
parsers of gateway/models (each yields a message, or an error). -/
structure Env where
  Apps : List (Option AppConfig)
  ShouldBindQuery : Request → Except String WechatRequestModel
  ToString : Int → String
  NewMessageCrypter : String → String → String → Except String MessageCrypter
  AcceptEncryptMessageParseForXML : String → Except String AcceptEncryptMessage
  AcceptEncryptMessageParseForJSON : String → Except String AcceptEncryptMessage

open Gin

variable {H : Type}

/-- The handler `AcceptGET` of gateway/server/server.go. -/
def AcceptGET (env : Env) (ctx : Context H) : Result H :=
  match env.ShouldBindQuery ctx.Request with
  | .error _ => .ok (ctx.Status 400)
  | .ok model =>
    let appID := ctx.Param "appid"
    match GetApp env.Apps appID with
    | .error f => .error { fault := f, ctx := ctx }
    | .ok none => .error { fault := Fault.nilDeref, ctx := ctx }
    | .ok (some appConfig) =>
      let ctx := ctx.emit (Event.newCrypter appConfig.Token appConfig.EncodingAESKey appID)
      match env.NewMessageCrypter appConfig.Token appConfig.EncodingAESKey appID with
      | .error _ => .ok (ctx.Status 400)
      | .ok msgCrypter =>
        let ctx := ctx.emit
          (Event.getSignature (env.ToString model.Timestamp) (env.ToString model.Nonce) "")
        if model.Signature ≠
            msgCrypter.GetSignature (env.ToString model.Timestamp)
              (env.ToString model.Nonce) "" then
          .ok (ctx.Status 400)
        else
          ctx.String 200 model.Echostr

/-- The handler `checkAppID` of gateway/server/server.go; `next` is `ctx.Next`. -/
def checkAppID (env : Env) (next : Context H → Result H) (ctx : Context H) : Result H :=
  let appID := ctx.Param "appid"
  match ExistAppID env.Apps appID with
  | .error f => .error { fault := f, ctx := ctx }
  | .ok false => .ok ((ctx.Status 404).Abort)
  | .ok true => next ctx

/-- The handler `AcceptPOST` of gateway/server/server.go. The log calls are left out. -/
def AcceptPOST (env : Env) (ctx : Context H) : Result H :=
  let appID := ctx.Param "appid"
  match GetApp env.Apps appID with
  | .error f => .error { fault := f, ctx := ctx }
  | .ok none => .error { fault := Fault.nilDeref, ctx := ctx }
  | .ok (some appConfig) =>
    if appConfig.EncryptionMethod = "secure" then
      let ctx := ctx.emit Event.readBody
      match ctx.Request.Body with
      | .error _ => .ok (ctx.Status 400)
      | .ok bytes =>
        let ctx := ctx.emit (Event.newCrypter appConfig.Token appConfig.EncodingAESKey appID)
        match env.NewMessageCrypter appConfig.Token appConfig.EncodingAESKey appID with
        | .error _ => .ok (ctx.Status 400)
        | .ok msgCrypter =>
          let decryptAndCheck (ctx : Context H) (msg : AcceptEncryptMessage) : Result H :=
            let ctx := ctx.emit (Event.decrypt msg.Encrypt)
            match msgCrypter.Decrypt msg.Encrypt with
            | .error _ => .ok (ctx.Status 400)
            | .ok (_, inAppID) =>
              if appID ≠ inAppID then .ok (ctx.Status 400)
              else .ok ctx
          if appConfig.DataType = "xml" then
            let ctx := ctx.emit (Event.parseXML bytes)
            match env.AcceptEncryptMessageParseForXML bytes with
            | .error _ => .ok (ctx.Status 400)
            | .ok msg => decryptAndCheck ctx msg
          else if appConfig.DataType = "json" then
            let ctx := ctx.emit (Event.parseJSON bytes)
            match env.AcceptEncryptMessageParseForJSON bytes with
            | .error _ => .ok (ctx.Status 400)
            | .ok msg => decryptAndCheck ctx msg
          else
            .ok (ctx.Status 400)
    else if appConfig.EncryptionMethod = "compatible" then
      .ok ctx
    else
      let ctx := ctx.emit Event.readBody
      match ctx.Request.Body with
      | .error _ => .ok (ctx.Status 400)
      | .ok _ => .ok ctx

/-- The handlers the function `HTTP` registers. -/
inductive Handler where
  | checkAppID
  | AcceptGET
  | AcceptPOST
  deriving DecidableEq, Repr

/-- The meaning of each registered handler. -/
def handle (env : Env) (next : Context Handler → Result Handler) :
    Handler → Context Handler → Result Handler
  | .checkAppID, ctx => checkAppID env next ctx
  | .AcceptGET, ctx => AcceptGET env ctx
  | .AcceptPOST, ctx => AcceptPOST env ctx

/-- The chain of `engine.GET("/:appid", checkAppID, AcceptGET)`. -/
def getChain : List Handler := [Handler.checkAppID, Handler.AcceptGET]

/-- The chain of `engine.POST("/:appid", checkAppID, AcceptPOST)`. -/
def postChain : List Handler := [Handler.checkAppID, Handler.AcceptPOST]

/-- A request `GET /:appid` served by the engine (the route's own chain; the engine-wide
middleware, which is not part of these sources, is left out). -/
def serveGET (env : Env) (fuel : Nat) (appid : String) (req : Request) :
    Result Handler :=
  Gin.serve (handle env) fuel getChain [("appid", appid)] req

/-- A request `POST /:appid` served by the engine. -/
def servePOST (env : Env) (fuel : Nat) (appid : String) (req : Request) :
    Result Handler :=
  Gin.serve (handle env) fuel postChain [("appid", appid)] req

end Gateway

/-! ## proxy/server -/

namespace Proxy

/-- Modelled from the spec: the struct `AppConfig` of proxy/module/config, a package that is
not among the sources. The fields are the ones `proxy` reads: the tenant id, the app
secret, and the two cache-key names (ticket key, access-token key). -/
structure AppConfig where
  ID : String
  Secret : String
  RedisJsAPITicketKey : String
  RedisAccessTokenKey : String
  deriving DecidableEq, Repr

/-- Modelled from the spec: `config.GetApp` of proxy/module/config, which is not among the
sources: the tenant directory's `resolve(tenantID) -> Tenant | absent`, written as the
gateway's `GetApp` is. -/
def GetApp : List (Option AppConfig) → String → Except Fault (Option AppConfig)
  | [], _ => .ok none
  | none :: _, _ => .error Fault.nilDeref
  | some v :: apps, appID => if v.ID = appID then .ok (some v) else GetApp apps appID

/-- Modelled from the spec: `config.ExistAppID` of proxy/module/config, which is not among the
sources: the tenant directory's `exists(tenantID) -> bool`, written as the gateway's
`ExistAppID` is. -/
def ExistAppID : List (Option AppConfig) → String → Except Fault Bool
  | [], _ => .ok false
  | none :: _, _ => .error Fault.nilDeref
  | some v :: apps, appID => if v.ID = appID then .ok true else ExistAppID apps appID

/-- The errors of a cache lookup: the sentinel `redis.Nil` (key absent), or any other. -/
inductive RedisError where
  | Nil
  | other (msg : String)
  deriving DecidableEq, Repr

/-- The command `store.RedisClient.Get(ctx, key)` of go-redis: the stored string and the
error; `.Bytes()` hands out the bytes of `val` together with `err`. -/
structure StringCmd where
  val : String
  err : Option RedisError
  deriving DecidableEq, Repr

/-- Go `http.Response`: status code, header map (the list order stands for the order in
which `range` visits the keys), body. -/
structure Response where
  StatusCode : Int
  Header : StrMap
  Body : String

/-- What the proxy handlers take from outside: the tenant list, the cache client, the
library functions `(*url.URL).Query` (on the raw query), `url.Parse`, `Values.Encode`,
`textproto.CanonicalMIMEHeaderKey`, and the transport `Transport.RoundTrip`. -/
structure Env where
  Apps : List (Option AppConfig)
  RedisGet : String → StringCmd
  Query : String → StrMap
  Parse : String → Except String URL
  Encode : StrMap → String
  CanonicalMIMEHeaderKey : String → String
  RoundTrip : Request → Except String Response

/-- Simple case folding of a rune, limited to the runes whose folding orbit contains an
ASCII letter: the ASCII letters, the Kelvin sign (folds with `k`) and the long s (folds
with `s`). Every other rune is left as it is, which decides every comparison with an ASCII
string as Go does. -/
def foldRune (r : Char) : Char :=
  if r = Char.ofNat 0x212A then (Char.ofNat 0x6B)
  else if r = Char.ofNat 0x17F then (Char.ofNat 0x73)
  else r.toLower

/-- Go `strings.EqualFold`: equality under simple Unicode case folding. -/
def EqualFold (s t : String) : Bool :=
  s.toList.map foldRune == t.toList.map foldRune

/-- The function `getRedisValue` of proxy/server/server.go. -/
def getRedisValue (env : Env) (key : String) : String :=
  let cmd := env.RedisGet key
  match cmd.err with
  | some RedisError.Nil => ""
  | some _ => ""
  | none => cmd.val

open Gin

variable {H : Type}

/-- The `switch path` of `proxy` (lines 68 to 85): the base URL, the query after the
`Set` calls, and the cache lookups made, in order. -/
def routeSwitch (env : Env) (appConfig : AppConfig) (path : String) (proxyQuery : StrMap) :
    String × StrMap × List Event :=
  if path = "/sns/oauth2/access_token" ∨ path = "/sns/jscode2session" then
    ("https://api.weixin.qq.com",
      StrMap.Set (StrMap.Set proxyQuery "appid" appConfig.ID) "secret" appConfig.Secret, [])
  else if path = "/sns/oauth2/refresh_token" then
    ("https://api.weixin.qq.com", StrMap.Set proxyQuery "appid" appConfig.ID, [])
  else if path = "/cgi-bin/showqrcode" then
    ("https://mp.weixin.qq.com",
      StrMap.Set proxyQuery "ticket" (getRedisValue env appConfig.RedisJsAPITicketKey),
      [Event.redisGet appConfig.RedisJsAPITicketKey])
  else if path = "/cgi-bin/gettoken" then
    ("https://qyapi.weixin.qq.com",
      StrMap.Set (StrMap.Set proxyQuery "corpid" appConfig.ID) "corpsecret" appConfig.Secret,
      [])
  else
    ("https://api.weixin.qq.com",
      StrMap.Set proxyQuery "access_token" (getRedisValue env appConfig.RedisAccessTokenKey),
      [Event.redisGet appConfig.RedisAccessTokenKey])

/-- The inner loop of the header copy (lines 114 to 116): `Header().Add(key, v)` for each
value of one upstream header. -/
def addValues (canon : String → String) (key : String) : List String → StrMap → StrMap
  | [], h => h
  | v :: value, h => addValues canon key value (StrMap.Add canon h key v)

/-- The outer loop of the header copy (lines 109 to 117), over the upstream header map:
an entry named `Content-Length` or `Connection` under `strings.EqualFold` is skipped by
`continue`. -/
def copyHeader (canon : String → String) : StrMap → StrMap → StrMap
  | [], h => h
  | (key, value) :: rest, h =>
    if EqualFold key "Content-Length" || EqualFold key "Connection" then
      copyHeader canon rest h
    else
      copyHeader canon rest (addValues canon key value h)

/-- The handler `proxy` of proxy/server/server.go. The log calls are left out. -/
def proxy (env : Env) (ctx : Context H) : Result H :=
  let appID := ctx.Param "appid"
  let path := ctx.Param "path"
  match GetApp env.Apps appID with
  | .error f => .error { fault := f, ctx := ctx }
  | .ok none => .error { fault := Fault.nilDeref, ctx := ctx }
  | .ok (some appConfig) =>
    match routeSwitch env appConfig path (env.Query ctx.Request.URL.RawQuery) with
    | (proxyBaseURL, proxyQuery, lookups) =>
      let ctx := { ctx with trace := ctx.trace ++ lookups }
      match env.Parse (proxyBaseURL ++ path) with
      | .error _ => .ok (ctx.Status 400)
      | .ok proxyURL =>
        let proxyURL := { proxyURL with RawQuery := env.Encode proxyQuery }
        let proxyReq := { ctx.Request with URL := proxyURL }
        let ctx := ctx.emit (Event.roundTrip proxyReq)
        match env.RoundTrip proxyReq with
        | .error _ => ctx.String 502 "请求接口出错"
        | .ok proxyResp =>
          let hdr := copyHeader env.CanonicalMIMEHeaderKey proxyResp.Header ctx.Writer.header
          let ctx := { ctx with Writer := { ctx.Writer with header := hdr } }
          let ctx := { ctx with Writer := ctx.Writer.WriteHeader proxyResp.StatusCode }
          ctx.withWriter (ioCopy ctx.Writer proxyResp.Body)

/-- The handler `checkAppID` of proxy/server/server.go; `next` is `ctx.Next`. -/
def checkAppID (env : Env) (next : Context H → Result H) (ctx : Context H) : Result H :=
  let appID := ctx.Param "appid"
  match ExistAppID env.Apps appID with
  | .error f => .error { fault := f, ctx := ctx }
  | .ok false => .ok ((ctx.Status 404).Abort)
  | .ok true => next ctx

/-- The handlers the function `HTTP` registers. -/
inductive Handler where
  | checkAppID
  | proxy
  deriving DecidableEq, Repr

/-- The meaning of each registered handler. -/
def handle (env : Env) (next : Context Handler → Result Handler) :
    Handler → Context Handler → Result Handler
  | .checkAppID, ctx => checkAppID env next ctx
  | .proxy, ctx => proxy env ctx

/-- The chain of `engine.GET("/:appid/*path", checkAppID, proxy)` and of the `POST` route. -/
def proxyChain : List Handler := [Handler.checkAppID, Handler.proxy]

/-- A request `GET` or `POST /:appid/*path` served by the engine (the route's own chain). -/
def serveProxy (env : Env) (fuel : Nat) (appid path : String) (req : Request) :
    Result Handler :=
  Gin.serve (handle env) fuel proxyChain [("appid", appid), ("path", path)] req

end Proxy

/-! ## Notions used in the statements, and sample data -/

namespace Gin

/-- The last two steps of a proxied request that is answered, on the context in which the
headers are copied and the status is stored: `io.Copy` of the upstream body by the last
handler of the chain (index 1, so 3 when the chain is left), and the end of the request. -/
def copyAndFinish {H : Type} (c : Context H) (body : String) : Result H :=
  match c.withWriter (ioCopy c.Writer body) with
  | .error a => .error a
  | .ok c1 => finishRequest { c1 with index := 3 }

end Gin

/-- Two strings of the same length that differ at exactly one place. -/
def differAtOnePlace (s t : String) : Prop :=
  s.toList.length = t.toList.length ∧
    ∃ i, i < s.toList.length ∧ s.toList.get? i ≠ t.toList.get? i ∧
      ∀ j, j ≠ i → s.toList.get? j = t.toList.get? j

namespace Gateway

/-- The envelope parse that lines 100 to 118 of `AcceptPOST` select by the tenant's data
format: the XML parser, the JSON parser, or for any other format a rejection. -/
def parseEnvelope (env : Env) (appConfig : AppConfig) (bytes : String) :
    Except String AcceptEncryptMessage :=
  if appConfig.DataType = "xml" then env.AcceptEncryptMessageParseForXML bytes
  else if appConfig.DataType = "json" then env.AcceptEncryptMessageParseForJSON bytes
  else .error "数据格式不正确"

/-- The conditions under which `AcceptPOST` lets a secure-mode delivery pass: the body is
read, the crypter is built, the envelope parses in the tenant's data format, and the
ciphertext decrypts to a message whose embedded app id is the path's. -/
def secureAccepts (env : Env) (appConfig : AppConfig) (appID : String)
    (body : Except String String) : Prop :=
  ∃ bytes msgCrypter msg plain,
    body = .ok bytes ∧
    env.NewMessageCrypter appConfig.Token appConfig.EncodingAESKey appID = .ok msgCrypter ∧
    parseEnvelope env appConfig bytes = .ok msg ∧
    msgCrypter.Decrypt msg.Encrypt = .ok (plain, appID)

/-- A toy crypter: the signature is the concatenation of its inputs behind the token; the
blob `garbled` does not decrypt, and any other blob decrypts to a fixed text with the blob
itself as the embedded app id. -/
def sampleCrypter (token : String) : MessageCrypter where
  GetSignature := fun timestamp nonce msg => token ++ timestamp ++ nonce ++ msg
  Decrypt := fun blob =>
    if blob = "garbled" then .error "illegal buffer" else .ok ("<xml></xml>", blob)

/-- A sample tenant list: a secure XML tenant, a compatible tenant with an unknown data
format, and a plaintext tenant. -/
def sampleApps : List (Option AppConfig) :=
  [some { ID := "acme", Token := "tok", DataType := "xml", EncryptionMethod := "secure",
          EncodingAESKey := "key" },
   some { ID := "beta", Token := "tok2", DataType := "yaml",
          EncryptionMethod := "compatible", EncodingAESKey := "key2" },
   some { ID := "gamma", Token := "tok3", DataType := "xml", EncryptionMethod := "none",
          EncodingAESKey := "key3" }]

/-- A sample environment: the binder yields a fixed challenge built from the raw query as
signature, the parsers take the whole body as the ciphertext and reject the empty body. -/
def sampleEnv : Env where
  Apps := sampleApps
  ShouldBindQuery := fun req =>
    .ok { Signature := req.URL.RawQuery, Timestamp := 1, Nonce := 2, Echostr := "hello" }
  ToString := fun i => toString i
  NewMessageCrypter := fun token _ _ => .ok (sampleCrypter token)
  AcceptEncryptMessageParseForXML := fun bytes =>
    if bytes = "" then .error "EOF" else .ok { Encrypt := bytes }
  AcceptEncryptMessageParseForJSON := fun bytes =>
    if bytes = "" then .error "unexpected end of JSON input" else .ok { Encrypt := bytes }

/-- A sample request with the given raw query and body. -/
def sampleRequest (method rawQuery body : String) : Request where
  Method := method
  URL := { Scheme := "", Host := "", Path := "", RawQuery := rawQuery }
  Header := []
  Body := .ok body

end Gateway

namespace Proxy

/-- The credential a row of the routing table injects. -/
inductive Credential where
  | tenantID
  | tenantSecret
  | cachedTicket
  | cachedAccessToken
  deriving DecidableEq, Repr

/-- A row of the routing table of the specification: the subpaths it is keyed on, the
upstream base host, and the query parameters it sets. -/
structure Row where
  subpaths : List String
  host : String
  mutation : List (String × Credential)
  deriving Repr

/-- The routing table as the specification documents it, row by row, without the default
row. -/
def routingTable : List Row :=
  [ { subpaths := ["/sns/oauth2/access_token", "/sns/jscode2session"],
      host := "https://api.weixin.qq.com",
      mutation := [("appid", Credential.tenantID), ("secret", Credential.tenantSecret)] },
    { subpaths := ["/sns/oauth2/refresh_token"],
      host := "https://api.weixin.qq.com",
      mutation := [("appid", Credential.tenantID)] },
    { subpaths := ["/cgi-bin/showqrcode"],
      host := "https://mp.weixin.qq.com",
      mutation := [("ticket", Credential.cachedTicket)] },
    { subpaths := ["/cgi-bin/gettoken"],
      host := "https://qyapi.weixin.qq.com",
      mutation := [("corpid", Credential.tenantID),
        ("corpsecret", Credential.tenantSecret)] } ]

/-- The default row of the specification's routing table. -/
def defaultRow : Row :=
  { subpaths := [],
    host := "https://api.weixin.qq.com",
    mutation := [("access_token", Credential.cachedAccessToken)] }

/-- First match on the exact subpath, the default row when no row matches. -/
def rowFor (path : String) : Row :=
  match routingTable.find? (fun r => r.subpaths.contains path) with
  | some r => r
  | none => defaultRow

/-- The value of a credential for a tenant: its id, its secret, or the cache value of its
ticket key or access-token key. -/
def credentialValue (env : Env) (appConfig : AppConfig) : Credential → String
  | .tenantID => appConfig.ID
  | .tenantSecret => appConfig.Secret
  | .cachedTicket => getRedisValue env appConfig.RedisJsAPITicketKey
  | .cachedAccessToken => getRedisValue env appConfig.RedisAccessTokenKey

/-- The query after the mutations of a row, applied in the order of the row. -/
def applyMutation (env : Env) (appConfig : AppConfig) (q : StrMap) :
    List (String × Credential) → StrMap
  | [] => q
  | (name, cred) :: rest =>
    applyMutation env appConfig (StrMap.Set q name (credentialValue env appConfig cred)) rest

/-- What it means that the query `q'` is the client query `q` with the credentials
`names` (parameter name and value) injected: under each injected name `q'` holds exactly
one entry, of exactly the one value, so none of the client's values; under every other
name it holds the entries of `q`; and its entries outside the injected names are those of
`q`, in the same order. -/
def injects (q q' : StrMap) (names : List (String × String)) : Prop :=
  (∀ p ∈ names, StrMap.lookup q' p.1 = some [p.2] ∧ StrMap.entries q' p.1 = [[p.2]]) ∧
  (∀ k, k ∉ names.map Prod.fst →
    StrMap.lookup q' k = StrMap.lookup q k ∧ StrMap.entries q' k = StrMap.entries q k) ∧
  StrMap.others q' (names.map Prod.fst) = StrMap.others q (names.map Prod.fst)

/-- A subpath that none of the four keyed rows matches, so that the `default` case of
the switch is taken. -/
def defaultRouted (path : String) : Prop :=
  path ≠ "/sns/oauth2/access_token" ∧ path ≠ "/sns/jscode2session" ∧
  path ≠ "/sns/oauth2/refresh_token" ∧ path ≠ "/cgi-bin/showqrcode" ∧
  path ≠ "/cgi-bin/gettoken"

/-- The environment in which the cache holds the empty string under `key` and is as in
`env` elsewhere. -/
def withEmptyValue (env : Env) (key : String) : Env :=
  { env with RedisGet := fun k => if k = key then { val := "", err := none }
                                 else env.RedisGet k }

/-- The test of line 111: the header name is `Content-Length` or `Connection` under
`strings.EqualFold`. -/
def skipsHeader (key : String) : Bool :=
  EqualFold key "Content-Length" || EqualFold key "Connection"

/-- The outbound request `proxy` builds from the parsed target URL and the mutated query. -/
def outboundRequest (env : Env) (req : Request) (proxyURL : URL) (proxyQuery : StrMap) :
    Request :=
  { req with URL := { proxyURL with RawQuery := env.Encode proxyQuery } }

/-- The context of a proxied request of a known tenant at the point where the upstream has
answered, the headers are copied and the status code is stored: what is left is the copy
of the body and the end of the request. -/
def answeredContext (env : Env) (app : AppConfig) (appid path : String) (req : Request)
    (u : URL) (resp : Response) : Gin.Context Handler :=
  { Params := [("appid", appid), ("path", path)]
    Request := req
    Writer := Gin.ResponseWriter.WriteHeader
      { header := copyHeader env.CanonicalMIMEHeaderKey resp.Header [] } resp.StatusCode
    index := 1
    handlers := proxyChain
    trace := (routeSwitch env app path (env.Query req.URL.RawQuery)).2.2 ++
      [Event.roundTrip (outboundRequest env req u
        (routeSwitch env app path (env.Query req.URL.RawQuery)).2.1)] }

/-- A sample tenant list of one tenant. -/
def sampleApps : List (Option AppConfig) :=
  [some { ID := "acme", Secret := "s3cret", RedisJsAPITicketKey := "acme:ticket",
          RedisAccessTokenKey := "acme:token" }]

/-- A fragment of `url.Parse` for the sample environment: a URL with an ASCII control
character is refused (the first check `url.Parse` makes); any other string is taken as
the path of an `https` URL. -/
def sampleParse (rawURL : String) : Except String URL :=
  if rawURL.toList.any (fun c => decide (c.toNat < 0x20 ∨ c.toNat = 0x7F)) then
    .error "net/url: invalid control character in URL"
  else
    .ok { Scheme := "https", Host := "", Path := rawURL, RawQuery := "" }

/-- A toy `Values.Encode` for the sample environment: `k=v` pairs joined by `&`, without
sorting or escaping. -/
def sampleEncode : StrMap → String
  | [] => ""
  | (k, vs) :: m => vs.foldr (fun v acc => k ++ "=" ++ v ++ "&" ++ acc) (sampleEncode m)

/-- A sample environment over a given cache and transport; the inbound query is empty and
header names are taken as they are. -/
def sampleEnv (cache : String → StringCmd) (transport : Request → Except String Response) :
    Env where
  Apps := sampleApps
  RedisGet := cache
  Query := fun _ => []
  Parse := sampleParse
  Encode := sampleEncode
  CanonicalMIMEHeaderKey := fun key => key
  RoundTrip := transport

/-- A cache in which every key is absent: the error is `redis.Nil`. -/
def emptyCache : String → StringCmd :=
  fun _ => { val := "", err := some RedisError.Nil }

/-- A sample request. -/
def sampleRequest : Request where
  Method := "GET"
  URL := { Scheme := "", Host := "", Path := "", RawQuery := "" }
  Header := []
  Body := .ok ""

/-- A transport that answers every request with the given status code, three upstream
headers and the body `ok`. -/
def sampleTransport (code : Int) : Request → Except String Response :=
  fun _ => .ok
    { StatusCode := code,
      Header := [("Content-Length", ["2"]), ("connection", ["close"]),
        ("X-Trace", ["a", "b"])],
      Body := "ok" }

/-- A transport on which every round trip fails. -/
def failingTransport : Request → Except String Response :=
  fun _ => .error "dial tcp: connection refused"

end Proxy

/-! # Theorems -/

/-! ## Maps and the handler chain -/

namespace StrMap

/-- Erasing a key does not change what is stored under another key. -/
theorem lookup_erase_ne (m : StrMap) (k k' : String) (h : k' ≠ k) :
    lookup (erase m k) k' = lookup m k' := by
  induction m with
  | nil => rfl
  | cons e m ih =>
    obtain ⟨a, vs⟩ := e
    by_cases ha : a = k
    · subst ha
      have : ¬ a = k' := fun h' => h h'.symm
      simp [erase, lookup, this, ih]
    · by_cases hk : a = k'
      · subst hk
        simp [erase, lookup, h]
      · simp [erase, lookup, ha, hk, ih]

/-- A map write is read back under its key. -/
theorem lookup_store_same (m : StrMap) (k : String) (vs : List String) :
    lookup (store m k vs) k = some vs := by
  simp [store, lookup]

/-- A map write does not change what is stored under another key. -/
theorem lookup_store_ne (m : StrMap) (k k' : String) (vs : List String) (h : k' ≠ k) :
    lookup (store m k vs) k' = lookup m k' := by
  have : ¬ k = k' := fun h' => h h'.symm
  simp only [store, lookup, this, if_false]
  exact lookup_erase_ne m k k' h

/-- A map write is read back under its key, read as a slice. -/
theorem get_store_same (m : StrMap) (k : String) (vs : List String) :
    get (store m k vs) k = vs := by
  simp [get, lookup_store_same]

/-- A map write does not change the slice under another key. -/
theorem get_store_ne (m : StrMap) (k k' : String) (vs : List String) (h : k' ≠ k) :
    get (store m k vs) k' = get m k' := by
  simp [get, lookup_store_ne m k k' vs h]

/-- Erasing a key leaves no entry under it. -/
theorem entries_erase_same (m : StrMap) (k : String) : entries (erase m k) k = [] := by
  induction m with
  | nil => rfl
  | cons e m ih =>
    obtain ⟨a, vs⟩ := e
    by_cases ha : a = k
    · simpa [erase, ha] using ih
    · have : (a == k) = false := by simpa using ha
      simp only [erase, ha, if_false, entries, List.filter, this]
      exact ih

/-- Erasing a key leaves the entries under another key as they are. -/
theorem entries_erase_ne (m : StrMap) (k k' : String) (h : k' ≠ k) :
    entries (erase m k) k' = entries m k' := by
  induction m with
  | nil => rfl
  | cons e m ih =>
    obtain ⟨a, vs⟩ := e
    by_cases ha : a = k
    · subst ha
      have : (a == k') = false := by simpa using fun h' : a = k' => h h'.symm
      simp only [erase, if_true, entries, List.filter, this]
      exact ih
    · simp only [erase, ha, if_false, entries, List.filter]
      cases hk : (a == k')
      · exact ih
      · simp only [List.map_cons]
        congr 1

/-- Erasing one of the keys `ks` does not change the entries outside `ks`. -/
theorem others_erase (m : StrMap) (k : String) (ks : List String) (h : k ∈ ks) :
    others (erase m k) ks = others m ks := by
  induction m with
  | nil => rfl
  | cons e m ih =>
    obtain ⟨a, vs⟩ := e
    by_cases ha : a = k
    · subst ha
      have : ks.contains a = true := by simpa using h
      simp only [erase, if_true, others, List.filter, this, Bool.not_true]
      exact ih
    · simp only [erase, ha, if_false, others, List.filter]
      cases hk : !(ks.contains a)
      · exact ih
      · show (a, vs) :: others (erase m k) ks = (a, vs) :: others m ks
        rw [ih]

/-- After a map write exactly one entry is stored under the key: the new value list. -/
theorem entries_store_same (m : StrMap) (k : String) (vs : List String) :
    entries (store m k vs) k = [vs] := by
  have := entries_erase_same m k
  simp only [entries] at this
  simp [store, entries, List.filter, this]

/-- A map write leaves the entries under another key as they are. -/
theorem entries_store_ne (m : StrMap) (k k' : String) (vs : List String) (h : k' ≠ k) :
    entries (store m k vs) k' = entries m k' := by
  have h1 := entries_erase_ne m k k' h
  have : (k == k') = false := by simpa using fun h' : k = k' => h h'.symm
  simp only [entries] at h1
  simp only [store, entries, List.filter, this]
  exact h1

/-- A map write under one of the keys `ks` does not change the entries outside `ks`. -/
theorem others_store (m : StrMap) (k : String) (vs : List String) (ks : List String)
    (h : k ∈ ks) : others (store m k vs) ks = others m ks := by
  have h1 := others_erase m k ks h
  have : ks.contains k = true := by simpa using h
  simp only [others] at h1
  simp only [store, others, List.filter, this, Bool.not_true]
  exact h1

end StrMap

namespace Gin
variable {H : Type}

/-- The loop of `Next` stops once the index has left the chain. -/
theorem nextLoop_done (handle : (Context H → Result H) → H → Context H → Result H)
    (n : Nat) (c : Context H)
    (h : (c.handlers.length : Int) ≤ c.index) : nextLoop handle (n + 1) c = .ok c := by
  have : ¬ c.index < (c.handlers.length : Int) := not_lt.mpr h
  simp [nextLoop, this]

/-- One turn of the loop of `Next`: the handler at the index runs, then the loop goes on. -/
theorem nextLoop_step (handle : (Context H → Result H) → H → Context H → Result H)
    (n i : Nat) (c : Context H) (h : H)
    (hi : c.index = (i : Int)) (hh : c.handlers.get? i = some h) :
    nextLoop handle (n + 1) c =
      match handle (Next handle n) h c with
      | .error a => .error a
      | .ok c1 => nextLoop handle n { c1 with index := c1.index + 1 } := by
  have hlt : i < c.handlers.length := by
    rcases Nat.lt_or_ge i c.handlers.length with h1 | h1
    · exact h1
    · rw [List.get?_eq_none.mpr h1] at hh; cases hh
  have h1 : c.index < (c.handlers.length : Int) := by rw [hi]; exact_mod_cast hlt
  have h2 : ¬ c.index < 0 := by rw [hi]; exact not_lt.mpr (Int.ofNat_nonneg i)
  have h3 : c.index.toNat = i := by rw [hi]; rfl
  rw [nextLoop]
  simp only [h1, h2, h3, hh, if_true, if_false]

/-- A chain of two handlers whose first calls `Next` and whose second leaves the chain and
an index of at least 1: the request is the second handler on the fresh context followed
by the end of the request, and a panic of the second handler is the panic of the request;
for every fuel from 5 on. -/
theorem serve_two (handle : (Context H → Result H) → H → Context H → Result H)
    (n : Nat) (g h : H) (params : List (String × String)) (req : Request)
    (hg : handle (Next handle (n + 3)) g (freshContext [g, h] params req 0)
      = Next handle (n + 3) (freshContext [g, h] params req 0))
    (hframe : ∀ c1, handle (Next handle (n + 1)) h (freshContext [g, h] params req 1)
      = .ok c1 → 1 ≤ c1.index ∧ c1.handlers = [g, h]) :
    serve handle (n + 5) [g, h] params req =
      match handle (Next handle (n + 1)) h (freshContext [g, h] params req 1) with
      | .error a => .error a
      | .ok c1 => finishRequest { c1 with index := c1.index + 2 } := by
  have s0 : Next handle (n + 5) (freshContext [g, h] params req (-1))
      = nextLoop handle (n + 4) (freshContext [g, h] params req 0) := rfl
  have s1 : Next handle (n + 3) (freshContext [g, h] params req 0)
      = nextLoop handle (n + 2) (freshContext [g, h] params req 1) := rfl
  have t0 := nextLoop_step handle (n + 3) 0 (freshContext [g, h] params req 0) g rfl rfl
  have t1 := nextLoop_step handle (n + 1) 1 (freshContext [g, h] params req 1) h rfl rfl
  rw [serve, s0, t0, hg, s1, t1]
  cases hh : handle (Next handle (n + 1)) h (freshContext [g, h] params req 1) with
  | error a => rfl
  | ok c1 =>
    obtain ⟨hidx, hhs⟩ := hframe c1 hh
    have s2 : nextLoop handle (n + 1) { c1 with index := c1.index + 1 }
        = .ok { c1 with index := c1.index + 1 } :=
      nextLoop_done handle n _ (by simp [hhs]; omega)
    have s3 : nextLoop handle (n + 3)
        { c1 with index := c1.index + 1 + 1 } = .ok { c1 with index := c1.index + 1 + 1 } :=
      nextLoop_done handle (n + 2) _ (by simp [hhs]; omega)
    simp only [s2, s3]
    congr 2
    omega

/-- A chain whose first handler returns with the index at or behind the end of the chain:
the request ends there, for every fuel from 3 on. -/
theorem serve_abort (handle : (Context H → Result H) → H → Context H → Result H)
    (n : Nat) (g : H) (rest : List H)
    (params : List (String × String)) (req : Request) (c1 : Context H)
    (hg : handle (Next handle (n + 1)) g (freshContext (g :: rest) params req 0) = .ok c1)
    (hidx : ((g :: rest).length : Int) ≤ c1.index + 1) (hhs : c1.handlers = g :: rest) :
    serve handle (n + 3) (g :: rest) params req
      = finishRequest { c1 with index := c1.index + 1 } := by
  have s0 : Next handle (n + 3) (freshContext (g :: rest) params req (-1))
      = nextLoop handle (n + 2) (freshContext (g :: rest) params req 0) := rfl
  have s2 : nextLoop handle (n + 1) { c1 with index := c1.index + 1 }
      = .ok { c1 with index := c1.index + 1 } :=
    nextLoop_done handle n _ (by simpa [hhs] using hidx)
  have t0 := nextLoop_step handle (n + 1) 0 (freshContext (g :: rest) params req 0) g
    rfl rfl
  rw [serve, s0, t0, hg]
  simp only [s2]

/-- The end of a request whose stored status is a final status code (101, or 200 to 999)
and of which nothing has been written: the status goes out as it is. -/
theorem finishRequest_final (c : Context H) (hw : c.Writer.written = false)
    (hh : c.Writer.wroteHeader = false)
    (hs : c.Writer.status = 101 ∨ (200 ≤ c.Writer.status ∧ c.Writer.status ≤ 999)) :
    finishRequest c = .ok { c with Writer :=
      { c.Writer with written := true, wroteHeader := true, sent := c.Writer.status } } := by
  have h1 : ¬ (c.Writer.status < 100 ∨ 999 < c.Writer.status) := by omega
  have h2 : ¬ (100 ≤ c.Writer.status ∧ c.Writer.status ≤ 199 ∧ c.Writer.status ≠ 101) := by
    omega
  simp [finishRequest, ResponseWriter.WriteHeaderNow, ResponseWriter.httpWriteHeader, hw, hh,
    h1, h2]

/-- The end of a request whose final header is already out: nothing more happens. -/
theorem finishRequest_written (c : Context H) (hw : c.Writer.written = true)
    (hh : c.Writer.wroteHeader = true) : finishRequest c = .ok c := by
  simp [finishRequest, ResponseWriter.WriteHeaderNow, hw, hh]

/-- The call of `Status` leaves the index alone. -/
@[simp]
theorem Status_index (c : Context H) (code : Int) :
    (c.Status code).index = c.index := rfl

/-- The call of `Status` leaves the chain alone. -/
@[simp]
theorem Status_handlers (c : Context H) (code : Int) :
    (c.Status code).handlers = c.handlers := rfl

/-- The call of `Status` makes no outside call. -/
@[simp]
theorem Status_trace (c : Context H) (code : Int) :
    (c.Status code).trace = c.trace := rfl

/-- Storing a status changes nothing but the stored status. -/
theorem WriteHeader_eq (w : ResponseWriter) (code : Int) :
    w.WriteHeader code = { w with status := (w.WriteHeader code).status } := by
  simp only [ResponseWriter.WriteHeader]; split <;> rfl

/-- The call of `Status` writes no body. -/
@[simp]
theorem Status_body (c : Context H) (code : Int) :
    (c.Status code).Writer.body = c.Writer.body := by
  simp only [Context.Status, ResponseWriter.WriteHeader]; split <;> rfl

/-- The call of `Status` leaves the header alone. -/
@[simp]
theorem Status_header (c : Context H) (code : Int) :
    (c.Status code).Writer.header = c.Writer.header := by
  simp only [Context.Status, ResponseWriter.WriteHeader]; split <;> rfl

/-- The call of `Status` hands nothing to net/http. -/
@[simp]
theorem Status_written (c : Context H) (code : Int) :
    (c.Status code).Writer.written = c.Writer.written := by
  simp only [Context.Status, ResponseWriter.WriteHeader]; split <;> rfl

/-- The call of `Status` sends no header. -/
@[simp]
theorem Status_wroteHeader (c : Context H) (code : Int) :
    (c.Status code).Writer.wroteHeader = c.Writer.wroteHeader := by
  simp only [Context.Status, ResponseWriter.WriteHeader]; split <;> rfl

/-- The call of `Status` with a positive code stores that code. -/
theorem Status_status (c : Context H) (code : Int) (h : 0 < code) :
    (c.Status code).Writer.status = code := by
  simp only [Context.Status, ResponseWriter.WriteHeader]
  split
  · rfl
  · rename_i hn
    by_contra hne
    exact hn ⟨h, hne⟩

/-- Recording an event leaves the index alone. -/
@[simp]
theorem emit_index (c : Context H) (e : Event) :
    (c.emit e).index = c.index := rfl

/-- Recording an event leaves the chain alone. -/
@[simp]
theorem emit_handlers (c : Context H) (e : Event) :
    (c.emit e).handlers = c.handlers := rfl

/-- Recording an event leaves the writer alone. -/
@[simp]
theorem emit_Writer (c : Context H) (e : Event) :
    (c.emit e).Writer = c.Writer := rfl

/-- Recording an event leaves the request alone. -/
@[simp]
theorem emit_Request (c : Context H) (e : Event) :
    (c.emit e).Request = c.Request := rfl

/-- Recording an event appends it to the trace. -/
@[simp]
theorem emit_trace (c : Context H) (e : Event) :
    (c.emit e).trace = c.trace ++ [e] := rfl

/-- Recording an event leaves the path parameters alone. -/
@[simp]
theorem emit_Param (c : Context H) (e : Event) (key : String) :
    (c.emit e).Param key = c.Param key := rfl

/-- The path parameter `appid` of a fresh context. -/
@[simp]
theorem freshContext_Param_appid (chain : List H) (appid : String)
    (more : List (String × String)) (req : Request) (i : Int) :
    (freshContext chain (("appid", appid) :: more) req i).Param "appid" = appid := by
  simp [freshContext, Context.Param]

/-- The request of a fresh context. -/
@[simp]
theorem freshContext_Request (chain : List H) (params : List (String × String))
    (req : Request) (i : Int) : (freshContext chain params req i).Request = req := rfl

/-- The trace of a fresh context is empty. -/
@[simp]
theorem freshContext_trace (chain : List H) (params : List (String × String))
    (req : Request) (i : Int) : (freshContext chain params req i).trace = [] := rfl

/-- The writer of a fresh context has status 200 and nothing written. -/
@[simp]
theorem freshContext_Writer (chain : List H) (params : List (String × String))
    (req : Request) (i : Int) : (freshContext chain params req i).Writer = {} := rfl

/-- The index of a fresh context. -/
@[simp]
theorem freshContext_index (chain : List H) (params : List (String × String))
    (req : Request) (i : Int) : (freshContext chain params req i).index = i := rfl

/-- The chain of a fresh context. -/
@[simp]
theorem freshContext_handlers (chain : List H) (params : List (String × String))
    (req : Request) (i : Int) : (freshContext chain params req i).handlers = chain := rfl

/-- Setting the content type changes nothing but the header map. -/
theorem writeContentType_eq (w : ResponseWriter) (v : List String) :
    writeContentType w v = { w with header := (writeContentType w v).header } := by
  unfold writeContentType; split <;> rfl

/-- Setting the content type leaves the status alone. -/
theorem writeContentType_status (w : ResponseWriter) (v : List String) :
    (writeContentType w v).status = w.status := by
  unfold writeContentType; split <;> rfl

/-- Setting the content type leaves the body alone. -/
theorem writeContentType_body (w : ResponseWriter) (v : List String) :
    (writeContentType w v).body = w.body := by
  unfold writeContentType; split <;> rfl

/-- The first write on a writer that holds a final status code which allows a body (200
to 999, not 204 or 304) and of which nothing has been handed on: the status goes out, the
data are appended to the body, and the write returns no error. -/
theorem Write_first (w : ResponseWriter) (data : String) (hw : w.written = false)
    (hh : w.wroteHeader = false) (hs : 200 ≤ w.status ∧ w.status ≤ 999)
    (hb : w.status ≠ 204 ∧ w.status ≠ 304) :
    w.Write data = .ok ({ w with
      written := true, wroteHeader := true, sent := w.status,
      body := w.body ++ data }, false) := by
  have h1 : ¬ (w.status < 100 ∨ 999 < w.status) := by omega
  have h2 : ¬ (100 ≤ w.status ∧ w.status ≤ 199 ∧ w.status ≠ 101) := by omega
  have h3 : ¬ (100 ≤ w.status ∧ w.status ≤ 199) := by omega
  simp only [ResponseWriter.Write, ResponseWriter.WriteHeaderNow,
    ResponseWriter.httpWriteHeader, ResponseWriter.httpWrite, hw, hh, h1, h2,
    bodyAllowedForStatus, h3, hb.1, hb.2]
  by_cases hd : data = ""
  · subst hd
    simp
  · simp [hd]
    omega

/-- The call of `String` with a final status code that allows a body, on a context of
which nothing has been handed on: the status is stored and sent, the content type is set
and the format is appended to the body. -/
theorem String_first (c : Context H) (code : Int) (format : String)
    (hw : c.Writer.written = false) (hh : c.Writer.wroteHeader = false)
    (hc : 200 ≤ code ∧ code ≤ 999) (hb : code ≠ 204 ∧ code ≠ 304) :
    c.String code format = .ok { c with Writer :=
      { c.Writer with
        status := code
        header := (writeContentType c.Writer ["text/plain; charset=utf-8"]).header
        body := c.Writer.body ++ format
        written := true, wroteHeader := true, sent := code } } := by
  have hba : bodyAllowedForStatus code = true := by
    have h3 : ¬ (100 ≤ code ∧ code ≤ 199) := by omega
    simp [bodyAllowedForStatus, h3, hb.1, hb.2]
  have hst : (c.Status code).Writer.status = code := Status_status c code (by omega)
  have hwr := Write_first (writeContentType (c.Status code).Writer
      ["text/plain; charset=utf-8"]) format
    (by rw [writeContentType_eq]; simpa using hw)
    (by rw [writeContentType_eq]; simpa using hh)
    (by rw [writeContentType_status, hst]; exact hc)
    (by rw [writeContentType_status, hst]; exact hb)
  simp only [Context.String, hba, if_true, hwr, Bool.false_eq_true, if_false]
  rw [writeContentType_status, hst]
  simp only [writeContentType_body]
  have e : (c.Status code).Writer = { c.Writer with status := code } := by
    show c.Writer.WriteHeader code = _
    rw [WriteHeader_eq]
    have : (c.Writer.WriteHeader code).status = code := hst
    rw [this]
  have e1 : (c.Status code).Params = c.Params := rfl
  have e2 : (c.Status code).Request = c.Request := rfl
  rw [e, e1, e2]
  simp only [Status_index, Status_handlers, Status_trace]
  unfold writeContentType
  split <;> rfl

/-- Handing the status to net/http leaves the stored status, the header map and the body
alone. -/
theorem WriteHeaderNow_keeps (w w' : ResponseWriter) (h : w.WriteHeaderNow = .ok w') :
    w'.status = w.status ∧ w'.body = w.body ∧ w'.header = w.header := by
  simp only [ResponseWriter.WriteHeaderNow, ResponseWriter.httpWriteHeader] at h
  split at h
  · injection h with h; subst h; exact ⟨rfl, rfl, rfl⟩
  · split at h
    · injection h with h; subst h; exact ⟨rfl, rfl, rfl⟩
    · split at h
      · cases h
      · split at h <;> (injection h with h; subst h; exact ⟨rfl, rfl, rfl⟩)

/-- Handing the status to net/http succeeds when it is between 100 and 999. -/
theorem WriteHeaderNow_returns (w : ResponseWriter)
    (h : 100 ≤ w.status ∧ w.status ≤ 999) : ∃ w', w.WriteHeaderNow = .ok w' := by
  have h1 : ¬ (w.status < 100 ∨ 999 < w.status) := by omega
  simp only [ResponseWriter.WriteHeaderNow, ResponseWriter.httpWriteHeader, h1, if_false]
  split
  · exact ⟨_, rfl⟩
  · split
    · exact ⟨_, rfl⟩
    · split <;> exact ⟨_, rfl⟩

/-- The end of a request changes only what net/http has been handed: the stored status,
the header map, the body, the trace and the chain stay as they are, and the final header
is out. -/
theorem finishRequest_keeps (c c' : Context H) (h : finishRequest c = .ok c') :
    c'.Writer.status = c.Writer.status ∧ c'.Writer.body = c.Writer.body ∧
    c'.Writer.header = c.Writer.header ∧ c'.trace = c.trace ∧ c'.index = c.index ∧
    c'.handlers = c.handlers ∧ c'.Writer.wroteHeader = true := by
  unfold finishRequest at h
  cases hw : c.Writer.WriteHeaderNow with
  | error f => rw [hw] at h; cases h
  | ok w =>
    rw [hw] at h
    obtain ⟨k1, k2, k3⟩ := WriteHeaderNow_keeps _ _ hw
    injection h with h
    subst h
    by_cases hh : w.wroteHeader = true
    · simp [hh, k1, k2, k3]
    · simp [hh, k1, k2, k3]

/-- The end of a request returns when the stored status is between 100 and 999. -/
theorem finishRequest_returns (c : Context H)
    (h : 100 ≤ c.Writer.status ∧ c.Writer.status ≤ 999) :
    ∃ c', finishRequest c = .ok c' := by
  obtain ⟨w, hw⟩ := WriteHeaderNow_returns c.Writer h
  exact ⟨_, by rw [finishRequest, hw]⟩

end Gin

/-! ## The tenant directory -/

namespace Gateway

/-- The function `ExistAppID` answers whether `GetApp` finds an app, faults included. -/
theorem existAppID_eq_getApp (apps : List (Option AppConfig)) (appID : String) :
    ExistAppID apps appID = (GetApp apps appID).map Option.isSome := by
  induction apps with
  | nil => rfl
  | cons a apps ih =>
    cases a with
    | none => rfl
    | some v =>
      by_cases h : v.ID = appID
      · simp [ExistAppID, GetApp, h, Except.map]
      · simp [ExistAppID, GetApp, h, ih]

/-- On a list without nil entries `GetApp` returns; an app it returns is in the list and
carries the id, and when it returns nil no app of the list carries the id. -/
theorem getApp_ok_of_noNil (apps : List (Option AppConfig)) (appID : String)
    (hnil : ∀ a ∈ apps, a ≠ none) :
    ∃ r, GetApp apps appID = .ok r ∧
      (∀ v, r = some v → v.ID = appID ∧ some v ∈ apps) ∧
      (r = none → ∀ v, some v ∈ apps → v.ID ≠ appID) := by
  induction apps with
  | nil => exact ⟨none, rfl, by simp, by simp⟩
  | cons a apps ih =>
    have hrest : ∀ a ∈ apps, a ≠ none := fun a ha => hnil a (List.mem_cons_of_mem _ ha)
    cases a with
    | none => exact absurd rfl (hnil none (List.mem_cons_self _ _))
    | some v =>
      by_cases h : v.ID = appID
      · refine ⟨some v, by simp [GetApp, h], ?_, by simp⟩
        intro w hw
        cases hw
        exact ⟨h, List.mem_cons_self _ _⟩
      · obtain ⟨r, hr, h1, h2⟩ := ih hrest
        refine ⟨r, by simp [GetApp, h, hr], ?_, ?_⟩
        · intro w hw
          exact ⟨(h1 w hw).1, List.mem_cons_of_mem _ (h1 w hw).2⟩
        · intro hnone w hw
          rcases List.mem_cons.mp hw with hw | hw
          · cases hw; exact h
          · exact h2 hnone w hw

/-- Claim C1. Tenant directory lookup: for every app list without nil entries and every id,
`ExistAppID` is true exactly when some app of the list has that id (and false exactly
when none has), `GetApp` is non-nil exactly in that same case, an app it returns has the
id asked for, and for an id that no app carries `ExistAppID` is false and `GetApp` is nil. -/
theorem tenant_directory_lookup (apps : List (Option AppConfig)) (appID : String)
    (hnil : ∀ a ∈ apps, a ≠ none) :
    (ExistAppID apps appID = .ok true ↔ ∃ v, some v ∈ apps ∧ v.ID = appID) ∧
    (ExistAppID apps appID = .ok false ↔ ¬ ∃ v, some v ∈ apps ∧ v.ID = appID) ∧
    (∃ r, GetApp apps appID = .ok r ∧
      (r.isSome = true ↔ ∃ v, some v ∈ apps ∧ v.ID = appID) ∧
      (∀ v, r = some v → v.ID = appID)) ∧
    ((∀ v, some v ∈ apps → v.ID ≠ appID) →
      ExistAppID apps appID = .ok false ∧ GetApp apps appID = .ok none) := by
  obtain ⟨r, hr, h1, h2⟩ := getApp_ok_of_noNil apps appID hnil
  have hex : ExistAppID apps appID = .ok r.isSome := by
    rw [existAppID_eq_getApp, hr]; rfl
  cases r with
  | none =>
    have hno : ¬ ∃ v, some v ∈ apps ∧ v.ID = appID := by
      rintro ⟨v, hv, hid⟩
      exact h2 rfl v hv hid
    refine ⟨?_, ?_, ⟨none, hr, ?_, ?_⟩, ?_⟩
    · simp [hex, hno]
    · simp [hex, hno]
    · simp [hno]
    · simp
    · intro _
      exact ⟨by simp [hex], hr⟩
  | some w =>
    have hyes : ∃ v, some v ∈ apps ∧ v.ID = appID := ⟨w, (h1 w rfl).2, (h1 w rfl).1⟩
    refine ⟨?_, ?_, ⟨some w, hr, ?_, ?_⟩, ?_⟩
    · simp [hex, hyes]
    · simp [hex, hyes]
    · simp [hyes]
    · intro v hv
      exact (h1 v hv).1
    · intro hall
      exact absurd (h1 w rfl).1 (hall w (h1 w rfl).2)

/-- Claim C1 at a directory of two tenants, asked for the second. -/
theorem tenant_directory_lookup_witness :
    (∀ a ∈ [some (AppConfig.mk "acme" "t1" "xml" "secure" "k1"),
        some (AppConfig.mk "beta" "t2" "json" "none" "k2")], a ≠ none) ∧
    GetApp [some (AppConfig.mk "acme" "t1" "xml" "secure" "k1"),
        some (AppConfig.mk "beta" "t2" "json" "none" "k2")] "beta"
      = .ok (some (AppConfig.mk "beta" "t2" "json" "none" "k2")) ∧
    (ExistAppID [some (AppConfig.mk "acme" "t1" "xml" "secure" "k1"),
        some (AppConfig.mk "beta" "t2" "json" "none" "k2")] "beta" = .ok true ↔
      ∃ v, some v ∈ [some (AppConfig.mk "acme" "t1" "xml" "secure" "k1"),
        some (AppConfig.mk "beta" "t2" "json" "none" "k2")] ∧ v.ID = "beta") :=
  ⟨by simp, by rfl,
    (tenant_directory_lookup [some (AppConfig.mk "acme" "t1" "xml" "secure" "k1"),
        some (AppConfig.mk "beta" "t2" "json" "none" "k2")] "beta" (by simp)).1⟩

end Gateway

/-! ## The inbound handlers -/

namespace Gateway
open Gin

/-- A tenant that `GetApp` resolves passes `ExistAppID`. -/
theorem existAppID_of_getApp (apps : List (Option AppConfig)) (appID : String)
    (app : AppConfig) (h : GetApp apps appID = .ok (some app)) :
    ExistAppID apps appID = .ok true := by
  rw [existAppID_eq_getApp, h]; rfl

/-- For a known tenant the guard hands over to the second handler of the chain; when that
handler returns with a status between 100 and 999 stored, the request ends with the
status, header map, body and trace that the handler leaves. -/
theorem serve_known (env : Env) (n : Nat) (appid : String) (req : Request)
    (app : AppConfig) (hknown : GetApp env.Apps appid = .ok (some app))
    (h : Handler) (c1 : Context Handler)
    (hh : handle env (Next (handle env) (n + 1)) h
      (freshContext [Handler.checkAppID, h] [("appid", appid)] req 1) = .ok c1)
    (hidx : c1.index = 1) (hhs : c1.handlers = [Handler.checkAppID, h])
    (hs : 100 ≤ c1.Writer.status ∧ c1.Writer.status ≤ 999) :
    ∃ c, Gin.serve (handle env) (n + 5) [Handler.checkAppID, h] [("appid", appid)] req
        = .ok c ∧
      c.Writer.status = c1.Writer.status ∧ c.Writer.body = c1.Writer.body ∧
      c.Writer.header = c1.Writer.header ∧ c.trace = c1.trace ∧ c.index = 3 := by
  have hex := existAppID_of_getApp env.Apps appid app hknown
  have hserve := Gin.serve_two (handle env) n Handler.checkAppID h [("appid", appid)] req
    (by simp [handle, checkAppID, hex])
    (by intro c hc; rw [hh] at hc; cases hc; exact ⟨by omega, hhs⟩)
  rw [hh] at hserve
  simp only at hserve
  obtain ⟨c, hc⟩ := finishRequest_returns { c1 with index := c1.index + 2 } hs
  obtain ⟨k1, k2, k3, k4, k5, _, _⟩ := finishRequest_keeps _ _ hc
  exact ⟨c, by rw [hserve, hc], k1, k2, k3, k4, by rw [k5]; show c1.index + 2 = 3; omega⟩

/-- Two strings that differ at one place are different strings. -/
theorem ne_of_differAtOnePlace (s t : String) (h : differAtOnePlace s t) : s ≠ t := by
  rintro rfl
  obtain ⟨_, i, _, hne, _⟩ := h
  exact hne rfl

/-- Claim C8. Challenge verification for a known tenant whose query binds and whose
crypter is constructed: the response is 200 with body equal to the bound `Echostr` if and
only if the provided signature equals `GetSignature(timestamp, nonce, "")` of the tenant's
crypter; otherwise it is 400 with an empty body; in particular a provided signature that
differs from the computed one at a single place gives 400. The request is served to its
end for every fuel from 5 on. -/
theorem challenge_verification (env : Env) (n : Nat) (appid : String) (req : Request)
    (app : AppConfig) (model : WechatRequestModel) (cr : MessageCrypter)
    (hknown : GetApp env.Apps appid = .ok (some app))
    (hbind : env.ShouldBindQuery req = .ok model)
    (hcr : env.NewMessageCrypter app.Token app.EncodingAESKey appid = .ok cr) :
    ∃ c, serveGET env (n + 5) appid req = .ok c ∧
      ((c.Writer.status = 200 ∧ c.Writer.body = model.Echostr) ↔
        model.Signature =
          cr.GetSignature (env.ToString model.Timestamp) (env.ToString model.Nonce) "") ∧
      (model.Signature ≠
          cr.GetSignature (env.ToString model.Timestamp) (env.ToString model.Nonce) "" →
        c.Writer.status = 400 ∧ c.Writer.body = "") ∧
      (differAtOnePlace model.Signature
          (cr.GetSignature (env.ToString model.Timestamp) (env.ToString model.Nonce) "") →
        c.Writer.status = 400 ∧ c.Writer.body = "") := by
  have hA : handle env (Next (handle env) (n + 1)) Handler.AcceptGET
      (freshContext [Handler.checkAppID, Handler.AcceptGET] [("appid", appid)] req 1) =
      if model.Signature ≠
          cr.GetSignature (env.ToString model.Timestamp) (env.ToString model.Nonce) "" then
        .ok ((((freshContext [Handler.checkAppID, Handler.AcceptGET] [("appid", appid)] req
          1).emit (Event.newCrypter app.Token app.EncodingAESKey appid)).emit
          (Event.getSignature (env.ToString model.Timestamp) (env.ToString model.Nonce)
            "")).Status 400)
      else
        (((freshContext [Handler.checkAppID, Handler.AcceptGET] [("appid", appid)] req
          1).emit (Event.newCrypter app.Token app.EncodingAESKey appid)).emit
          (Event.getSignature (env.ToString model.Timestamp) (env.ToString model.Nonce)
            "")).String 200 model.Echostr := by
    simp only [handle, AcceptGET, freshContext_Request, hbind, freshContext_Param_appid,
      hknown, hcr]
  by_cases hsig : model.Signature =
      cr.GetSignature (env.ToString model.Timestamp) (env.ToString model.Nonce) ""
  · rw [if_neg (not_not.mpr hsig),
      String_first _ 200 model.Echostr rfl rfl (by decide) (by decide)] at hA
    obtain ⟨c, hc, hs, hb, _⟩ := serve_known env n appid req app hknown Handler.AcceptGET _
      hA rfl rfl (by simp)
    refine ⟨c, hc, ?_, ?_, ?_⟩
    · rw [hs, hb]
      simp [hsig, freshContext]
    · intro h; exact absurd hsig h
    · intro h; exact absurd hsig (ne_of_differAtOnePlace _ _ h)
  · rw [if_pos hsig] at hA
    obtain ⟨c, hc, hs, hb, _⟩ := serve_known env n appid req app hknown Handler.AcceptGET _
      hA rfl rfl (by simp [Status_status])
    have hs' : c.Writer.status = 400 := by rw [hs]; simp [Status_status]
    have hb' : c.Writer.body = "" := by rw [hb]; simp [freshContext]
    refine ⟨c, hc, ?_, fun _ => ⟨hs', hb'⟩, fun _ => ⟨hs', hb'⟩⟩
    simp [hsig, hs']

/-- Claim C8 at the sample tenant `acme` (token `tok`), timestamp 1, nonce 2: the correct
signature `tok12` is answered by 200 and the echo `hello`. -/
theorem challenge_verification_witness :
    ∃ c, serveGET sampleEnv 5 "acme" (sampleRequest "GET" "tok12" "") = .ok c ∧
      c.Writer.status = 200 ∧ c.Writer.body = "hello" := by
  obtain ⟨c, hc, hiff, _, _⟩ := challenge_verification sampleEnv 0 "acme"
    (sampleRequest "GET" "tok12" "")
    { ID := "acme", Token := "tok", DataType := "xml", EncryptionMethod := "secure",
      EncodingAESKey := "key" }
    { Signature := "tok12", Timestamp := 1, Nonce := 2, Echostr := "hello" }
    (sampleCrypter "tok") rfl rfl rfl
  exact ⟨c, hc, hiff.mpr (by decide)⟩

/-- For a known tenant `AcceptPOST` returns. -/
theorem AcceptPOST_returns {H : Type} (env : Env) (ctx : Context H) (app : AppConfig)
    (hknown : GetApp env.Apps (ctx.Param "appid") = .ok (some app)) :
    ∃ c, AcceptPOST env ctx = .ok c := by
  simp only [AcceptPOST, hknown]
  repeat' split
  all_goals exact ⟨_, rfl⟩

/-- The handler `AcceptPOST` leaves the chain, its index and the body alone, and leaves
the writer as it is or stores the status 400. -/
theorem AcceptPOST_frame {H : Type} (env : Env) (ctx c : Context H)
    (h : AcceptPOST env ctx = .ok c) :
    c.index = ctx.index ∧ c.handlers = ctx.handlers ∧ c.Writer.body = ctx.Writer.body ∧
    (c.Writer = ctx.Writer ∨ c.Writer.status = 400) := by
  simp only [AcceptPOST] at h
  repeat' split at h
  all_goals first
    | (injection h with h; subst h; simp [Status_status])
    | cases h

/-- In secure mode `AcceptPOST` leaves the writer alone when the delivery passes all four
steps, and writes 400 otherwise. -/
theorem AcceptPOST_secure {H : Type} (env : Env) (ctx c : Context H) (app : AppConfig)
    (hknown : GetApp env.Apps (ctx.Param "appid") = .ok (some app))
    (hsec : app.EncryptionMethod = "secure")
    (h : AcceptPOST env ctx = .ok c) :
    (secureAccepts env app (ctx.Param "appid") ctx.Request.Body → c.Writer = ctx.Writer) ∧
    (¬ secureAccepts env app (ctx.Param "appid") ctx.Request.Body →
      c.Writer.status = 400) := by
  simp only [AcceptPOST, hknown, hsec, if_true] at h
  repeat' split at h
  all_goals (injection h with h; subst h)
  all_goals constructor
  all_goals first
    | (intro _; simp [Status_status]; done)
    | (rintro ⟨bytes, cr, msg, plain, h1, h2, h3, h4⟩
       simp_all [parseEnvelope])
    | (intro hn; exfalso; apply hn
       simp_all [secureAccepts, parseEnvelope])

/-- A delivery to a known tenant runs `AcceptPOST` on the fresh context and ends with the
status, body, header map and trace that `AcceptPOST` leaves. -/
theorem servePOST_known (env : Env) (n : Nat) (appid : String) (req : Request)
    (app : AppConfig) (hknown : GetApp env.Apps appid = .ok (some app)) :
    ∃ c1 c, AcceptPOST env (freshContext postChain [("appid", appid)] req 1) = .ok c1 ∧
      servePOST env (n + 5) appid req = .ok c ∧
      c.Writer.status = c1.Writer.status ∧ c.Writer.body = c1.Writer.body ∧
      c.Writer.header = c1.Writer.header ∧ c.trace = c1.trace ∧ c.index = 3 := by
  obtain ⟨c1, hc1⟩ := AcceptPOST_returns env
    (freshContext postChain [("appid", appid)] req 1) app (by simpa using hknown)
  obtain ⟨hidx, hhs, _, hw⟩ := AcceptPOST_frame env _ c1 hc1
  have hs : 100 ≤ c1.Writer.status ∧ c1.Writer.status ≤ 999 := by
    rcases hw with hw | hw
    · rw [hw, freshContext_Writer]; decide
    · rw [hw]; decide
  obtain ⟨c, hc⟩ := serve_known env n appid req app hknown Handler.AcceptPOST c1 hc1 hidx
    hhs hs
  exact ⟨c1, c, hc1, hc⟩

/-- Claim C5. Secure-mode delivery for a known tenant: the response is 400 exactly when
one of the steps fails (body read, crypter, parse per the data format, decryption,
embedded id equal to the path id) and stays 200 exactly when all pass; so it is 400 when
the body cannot be read, when the envelope fails to parse, when decryption fails, and
when decryption succeeds with an embedded id other than the path id. The request is
served to its end for every fuel from 5 on. -/
theorem secure_delivery (env : Env) (n : Nat) (appid : String) (req : Request)
    (app : AppConfig) (hknown : GetApp env.Apps appid = .ok (some app))
    (hsec : app.EncryptionMethod = "secure") :
    ∃ c, servePOST env (n + 5) appid req = .ok c ∧
      (c.Writer.status = 400 ↔ ¬ secureAccepts env app appid req.Body) ∧
      (c.Writer.status = 200 ↔ secureAccepts env app appid req.Body) ∧
      ((∃ e, req.Body = .error e) → c.Writer.status = 400) ∧
      (∀ bytes, req.Body = .ok bytes → (∃ e, parseEnvelope env app bytes = .error e) →
        c.Writer.status = 400) ∧
      (∀ bytes cr msg, req.Body = .ok bytes →
        env.NewMessageCrypter app.Token app.EncodingAESKey appid = .ok cr →
        parseEnvelope env app bytes = .ok msg →
        (∃ e, cr.Decrypt msg.Encrypt = .error e) → c.Writer.status = 400) ∧
      (∀ bytes cr msg plain inAppID, req.Body = .ok bytes →
        env.NewMessageCrypter app.Token app.EncodingAESKey appid = .ok cr →
        parseEnvelope env app bytes = .ok msg →
        cr.Decrypt msg.Encrypt = .ok (plain, inAppID) → inAppID ≠ appid →
        c.Writer.status = 400) := by
  obtain ⟨c1, c, hc1, hserve, hst, _⟩ := servePOST_known env n appid req app hknown
  obtain ⟨hyes, hno'⟩ := AcceptPOST_secure env _ c1 app (by simpa using hknown) hsec hc1
  simp only [freshContext_Param_appid, freshContext_Request, freshContext_Writer]
    at hyes hno'
  have hno : ¬ secureAccepts env app appid req.Body → c.Writer.status = 400 :=
    fun h => by rw [hst]; exact hno' h
  have hacc : secureAccepts env app appid req.Body → c.Writer.status = 200 :=
    fun h => by rw [hst, hyes h]
  have h400 : c.Writer.status = 400 ↔ ¬ secureAccepts env app appid req.Body := by
    constructor
    · intro h hacc'
      rw [hacc hacc'] at h
      exact absurd h (by decide)
    · exact hno
  refine ⟨c, hserve, h400, ?_, ?_, ?_, ?_, ?_⟩
  · constructor
    · intro h
      by_contra hn
      rw [hno hn] at h
      exact absurd h (by decide)
    · exact hacc
  · rintro ⟨e, he⟩
    apply hno
    rintro ⟨bytes, cr, msg, plain, h1, _⟩
    rw [he] at h1; cases h1
  · rintro bytes hb ⟨e, he⟩
    apply hno
    rintro ⟨bytes', cr, msg, plain, h1, _, h3, _⟩
    rw [hb] at h1; cases h1
    rw [he] at h3; cases h3
  · rintro bytes cr msg hb hcr hparse ⟨e, he⟩
    apply hno
    rintro ⟨bytes', cr', msg', plain, h1, h2, h3, h4⟩
    rw [hb] at h1; cases h1
    rw [hcr] at h2; cases h2
    rw [hparse] at h3; cases h3
    rw [he] at h4; cases h4
  · rintro bytes cr msg plain inAppID hb hcr hparse hdec hne
    apply hno
    rintro ⟨bytes', cr', msg', plain', h1, h2, h3, h4⟩
    rw [hb] at h1; cases h1
    rw [hcr] at h2; cases h2
    rw [hparse] at h3; cases h3
    rw [hdec] at h4; cases h4
    exact hne rfl

/-- Claim C5 at the sample tenant `acme` (secure, XML): an envelope that parses and
decrypts, with embedded id `beta`, is answered by 400. -/
theorem secure_delivery_witness :
    ∃ c, servePOST sampleEnv 5 "acme" (sampleRequest "POST" "" "beta") = .ok c ∧
      c.Writer.status = 400 := by
  obtain ⟨c, hc, _, _, _, _, _, hmis⟩ := secure_delivery sampleEnv 0 "acme"
    (sampleRequest "POST" "" "beta")
    { ID := "acme", Token := "tok", DataType := "xml", EncryptionMethod := "secure",
      EncodingAESKey := "key" } rfl rfl
  exact ⟨c, hc, hmis "beta" (sampleCrypter "tok") { Encrypt := "beta" } "<xml></xml>" "beta"
    rfl rfl rfl rfl (by decide)⟩

/-- In secure mode a delivery whose body, if it can be read, does not parse in the
tenant's data format gets 400, and `Decrypt` is not called. -/
theorem AcceptPOST_parse_failure {H : Type} (env : Env) (ctx c : Context H)
    (app : AppConfig)
    (hknown : GetApp env.Apps (ctx.Param "appid") = .ok (some app))
    (hsec : app.EncryptionMethod = "secure")
    (hfail : ∀ bytes, ctx.Request.Body = .ok bytes →
      ∃ e, parseEnvelope env app bytes = .error e)
    (h : AcceptPOST env ctx = .ok c) :
    c.Writer.status = 400 ∧ c.trace.any Event.isDecrypt = ctx.trace.any Event.isDecrypt := by
  simp only [AcceptPOST, hknown, hsec, if_true, emit_Request] at h
  simp only [parseEnvelope] at hfail
  repeat' split at h
  all_goals (injection h with h; subst h)
  all_goals simp_all [Status_status, List.any_append, Event.isDecrypt]

/-- Outside secure mode `AcceptPOST` neither parses nor decrypts: in compatible mode it
does nothing at all, in any other mode it reads the body and writes 400 only when the
read fails. -/
theorem AcceptPOST_other_modes {H : Type} (env : Env) (ctx c : Context H) (app : AppConfig)
    (hknown : GetApp env.Apps (ctx.Param "appid") = .ok (some app))
    (hsec : app.EncryptionMethod ≠ "secure")
    (h : AcceptPOST env ctx = .ok c) :
    c.trace.any Event.isParse = ctx.trace.any Event.isParse ∧
    c.trace.any Event.isDecrypt = ctx.trace.any Event.isDecrypt ∧
    (app.EncryptionMethod = "compatible" → c.Writer = ctx.Writer ∧ c.trace = ctx.trace) ∧
    (app.EncryptionMethod ≠ "compatible" →
      ((∃ e, ctx.Request.Body = .error e) → c.Writer.status = 400) ∧
      (∀ bytes, ctx.Request.Body = .ok bytes → c.Writer = ctx.Writer)) := by
  simp only [AcceptPOST, hknown, hsec, if_false] at h
  repeat' split at h
  all_goals (injection h with h; subst h)
  all_goals simp_all [Status_status, List.any_append, Event.isDecrypt, Event.isParse]

/-- Claim C9, as amended. The envelope is parsed inside the secure branch only, after the
branch on the encryption method. For a known tenant in secure mode, a delivery whose data
format is neither `xml` nor `json`, or whose body (if readable) fails to parse in the
configured format, is answered by 400 and `Decrypt` is never called. In every other mode
no parser and no decryption is called and the data format plays no part: in compatible
mode nothing is written (status 200), otherwise the status is 400 exactly when the body
cannot be read. The request is served to its end for every fuel from 5 on. -/
theorem parse_inside_secure_branch (env : Env) (n : Nat) (appid : String) (req : Request)
    (app : AppConfig) (hknown : GetApp env.Apps appid = .ok (some app)) :
    ∃ c, servePOST env (n + 5) appid req = .ok c ∧
      (app.EncryptionMethod = "secure" →
        (∀ bytes, req.Body = .ok bytes → ∃ e, parseEnvelope env app bytes = .error e) →
        c.Writer.status = 400 ∧ c.trace.any Event.isDecrypt = false) ∧
      (app.EncryptionMethod = "secure" → app.DataType ≠ "xml" → app.DataType ≠ "json" →
        c.Writer.status = 400 ∧ c.trace.any Event.isDecrypt = false) ∧
      (app.EncryptionMethod ≠ "secure" →
        c.trace.any Event.isParse = false ∧ c.trace.any Event.isDecrypt = false) ∧
      (app.EncryptionMethod = "compatible" → c.Writer.status = 200 ∧ c.trace = []) ∧
      (app.EncryptionMethod ≠ "secure" → app.EncryptionMethod ≠ "compatible" →
        (c.Writer.status = 400 ↔ ∃ e, req.Body = .error e)) := by
  obtain ⟨c1, c, hc1, hserve, hst, _, _, htr, _⟩ :=
    servePOST_known env n appid req app hknown
  have hk : GetApp env.Apps ((freshContext postChain [("appid", appid)] req 1).Param "appid")
      = .ok (some app) := by simpa using hknown
  have hsecure : app.EncryptionMethod = "secure" →
      (∀ bytes, req.Body = .ok bytes → ∃ e, parseEnvelope env app bytes = .error e) →
      c.Writer.status = 400 ∧ c.trace.any Event.isDecrypt = false := by
    intro hsec hfail
    have := AcceptPOST_parse_failure env _ c1 app hk hsec (by simpa using hfail) hc1
    rw [hst, htr]
    simpa using this
  refine ⟨c, hserve, hsecure, ?_, ?_, ?_, ?_⟩
  · intro hsec hx hj
    refine hsecure hsec (fun bytes _ => ⟨"数据格式不正确", ?_⟩)
    simp [parseEnvelope, hx, hj]
  · intro hsec
    obtain ⟨h1, h2, _, _⟩ := AcceptPOST_other_modes env _ c1 app hk hsec hc1
    rw [htr]
    exact ⟨by simpa using h1, by simpa using h2⟩
  · intro hcomp
    have hsec : app.EncryptionMethod ≠ "secure" := by rw [hcomp]; decide
    obtain ⟨_, _, h3, _⟩ := AcceptPOST_other_modes env _ c1 app hk hsec hc1
    obtain ⟨hw, ht⟩ := h3 hcomp
    exact ⟨by rw [hst, hw]; rfl, by rw [htr, ht]; rfl⟩
  · intro hsec hcomp
    obtain ⟨_, _, _, h4⟩ := AcceptPOST_other_modes env _ c1 app hk hsec hc1
    obtain ⟨herr, hok⟩ := h4 hcomp
    constructor
    · intro h400
      cases hb : req.Body with
      | error e => exact ⟨e, rfl⟩
      | ok bytes =>
        rw [hst, hok bytes (by simpa using hb), freshContext_Writer] at h400
        exact absurd h400 (by decide)
    · rintro ⟨e, he⟩
      rw [hst]
      exact herr ⟨e, by simpa using he⟩

/-- Claim C9, as amended, at the sample tenant `acme` (secure, XML): the empty body does
not parse, so the answer is 400 and nothing is decrypted. -/
theorem parse_inside_secure_branch_witness :
    ∃ c, servePOST sampleEnv 5 "acme" (sampleRequest "POST" "" "") = .ok c ∧
      c.Writer.status = 400 ∧ c.trace.any Event.isDecrypt = false := by
  obtain ⟨c, hc, hsec, _⟩ := parse_inside_secure_branch sampleEnv 0 "acme"
    (sampleRequest "POST" "" "")
    { ID := "acme", Token := "tok", DataType := "xml", EncryptionMethod := "secure",
      EncodingAESKey := "key" } rfl
  refine ⟨c, hc, hsec rfl ?_⟩
  intro bytes hb
  cases hb
  exact ⟨"EOF", rfl⟩

/-- Claim C9 as stated fails. The sample tenant `beta` is known, in compatible mode, with
the data format `yaml` (neither `xml` nor `json`): its delivery is not rejected, the
status stays 200. The sample tenant `gamma` is known, in mode `none`, with data format
`xml`: a body that the XML parser rejects (the empty body) is not rejected either. -/
theorem parse_precedes_branch_counterexample :
    (∃ app c, GetApp sampleEnv.Apps "beta" = .ok (some app) ∧
      app.EncryptionMethod = "compatible" ∧ app.DataType ≠ "xml" ∧ app.DataType ≠ "json" ∧
      servePOST sampleEnv 5 "beta" (sampleRequest "POST" "" "anything") = .ok c ∧
      c.Writer.status = 200 ∧ c.Writer.status ≠ 400) ∧
    (∃ app c, GetApp sampleEnv.Apps "gamma" = .ok (some app) ∧
      app.EncryptionMethod = "none" ∧ app.DataType = "xml" ∧
      (∃ e, sampleEnv.AcceptEncryptMessageParseForXML "" = .error e) ∧
      servePOST sampleEnv 5 "gamma" (sampleRequest "POST" "" "") = .ok c ∧
      c.Writer.status = 200 ∧ c.Writer.status ≠ 400) :=
  ⟨⟨_, _, rfl, rfl, by decide, by decide, rfl, rfl, by decide⟩,
   ⟨_, _, rfl, rfl, rfl, ⟨_, rfl⟩, rfl, rfl, by decide⟩⟩

end Gateway


namespace Gin
variable {H : Type}

/-- Copying a body and ending the request with a stored status below 100 or above 999:
the writer panics, before or after the chain, with trace and header map as they were. -/
theorem copyAndFinish_invalid (c : Context H) (body : String)
    (hw : c.Writer.written = false) (hh : c.Writer.wroteHeader = false)
    (hs : c.Writer.status < 100 ∨ 999 < c.Writer.status) :
    ∃ a, copyAndFinish c body = .error a ∧ a.fault = Fault.invalidWriteHeaderCode ∧
      a.ctx.trace = c.trace ∧ a.ctx.Writer.header = c.Writer.header := by
  by_cases hb : body = ""
  · refine ⟨{ fault := Fault.invalidWriteHeaderCode, ctx := { c with index := 3 } }, ?_,
      rfl, rfl, rfl⟩
    simp [copyAndFinish, ioCopy, hb, Context.withWriter, finishRequest,
      ResponseWriter.WriteHeaderNow, ResponseWriter.httpWriteHeader, hw, hh, hs]
  · refine ⟨{ fault := Fault.invalidWriteHeaderCode, ctx := c }, ?_, rfl, rfl, rfl⟩
    simp [copyAndFinish, ioCopy, hb, Context.withWriter, ResponseWriter.Write,
      ResponseWriter.WriteHeaderNow, ResponseWriter.httpWriteHeader, hw, hh, hs]

/-- Copying a body and ending the request with a final status stored (101, or 200 to
999): the status goes out as it is, and the body is the copied one unless the status
allows none. -/
theorem copyAndFinish_final (c : Context H) (body : String)
    (hw : c.Writer.written = false) (hh : c.Writer.wroteHeader = false)
    (hbody : c.Writer.body = "")
    (hs : c.Writer.status = 101 ∨ (200 ≤ c.Writer.status ∧ c.Writer.status ≤ 999)) :
    ∃ c', copyAndFinish c body = .ok c' ∧ c'.Writer.status = c.Writer.status ∧
      c'.Writer.wroteHeader = true ∧ c'.Writer.sent = c.Writer.status ∧
      c'.Writer.informational = c.Writer.informational ∧
      c'.Writer.body = (if bodyAllowedForStatus c.Writer.status then body else "") ∧
      c'.Writer.header = c.Writer.header ∧ c'.trace = c.trace := by
  have h1 : ¬ (c.Writer.status < 100 ∨ 999 < c.Writer.status) := by omega
  have h2 : ¬ (100 ≤ c.Writer.status ∧ c.Writer.status ≤ 199 ∧ c.Writer.status ≠ 101) := by
    omega
  by_cases hb : body = ""
  · refine ⟨_, by
      simp only [copyAndFinish, ioCopy, hb, if_true, Context.withWriter]
      exact finishRequest_final _ hw hh hs, ?_⟩
    simp [hb, hbody]
  · by_cases hba : bodyAllowedForStatus c.Writer.status = true
    · refine ⟨{ c with index := 3, Writer := { c.Writer with
          written := true, wroteHeader := true, sent := c.Writer.status,
          body := c.Writer.body ++ body } }, ?_, ?_⟩
      · simp [copyAndFinish, ioCopy, hb, Context.withWriter, ResponseWriter.Write,
          ResponseWriter.WriteHeaderNow, ResponseWriter.httpWriteHeader,
          ResponseWriter.httpWrite, hw, hh, h1, h2, hba, finishRequest]
      · simp [hba, hbody]
    · refine ⟨{ c with index := 3, Writer := { c.Writer with
          written := true, wroteHeader := true, sent := c.Writer.status } }, ?_, ?_⟩
      · simp [copyAndFinish, ioCopy, hb, Context.withWriter, ResponseWriter.Write,
          ResponseWriter.WriteHeaderNow, ResponseWriter.httpWriteHeader,
          ResponseWriter.httpWrite, hw, hh, h1, h2, hba, finishRequest]
      · simp [hba, hbody]

/-- Copying a body and ending the request with an interim status stored (1xx other than
101): net/http sends it as an interim response and the final status is 200. -/
theorem copyAndFinish_interim (c : Context H) (body : String)
    (hw : c.Writer.written = false) (hh : c.Writer.wroteHeader = false)
    (hbody : c.Writer.body = "")
    (hs : 100 ≤ c.Writer.status ∧ c.Writer.status ≤ 199 ∧ c.Writer.status ≠ 101) :
    ∃ c', copyAndFinish c body = .ok c' ∧ c'.Writer.status = c.Writer.status ∧
      c'.Writer.wroteHeader = true ∧ c'.Writer.sent = 200 ∧
      c'.Writer.informational = c.Writer.informational ++ [c.Writer.status] ∧
      c'.Writer.body = body ∧
      c'.Writer.header = c.Writer.header ∧ c'.trace = c.trace := by
  have h1 : ¬ (c.Writer.status < 100 ∨ 999 < c.Writer.status) := by omega
  by_cases hb : body = ""
  · refine ⟨{ c with index := 3, Writer := { c.Writer with
        written := true, wroteHeader := true, sent := 200,
        informational := c.Writer.informational ++ [c.Writer.status] } }, ?_, ?_⟩
    · simp [copyAndFinish, ioCopy, hb, Context.withWriter, finishRequest,
        ResponseWriter.WriteHeaderNow, ResponseWriter.httpWriteHeader, hw, hh, h1, hs]
    · simp [hb, hbody]
  · refine ⟨{ c with index := 3, Writer := { c.Writer with
        written := true, wroteHeader := true, sent := 200,
        informational := c.Writer.informational ++ [c.Writer.status],
        body := c.Writer.body ++ body } }, ?_, ?_⟩
    · simp [copyAndFinish, ioCopy, hb, Context.withWriter, ResponseWriter.Write,
        ResponseWriter.WriteHeaderNow, ResponseWriter.httpWriteHeader,
        ResponseWriter.httpWrite, hw, hh, h1, hs, finishRequest, bodyAllowedForStatus]
    · simp [hbody]

end Gin

/-! ## The outbound proxy -/

namespace Proxy
open Gin

/-- The directory of the proxy: `ExistAppID` answers whether `GetApp` finds an app, faults
included. -/
theorem proxy_existAppID_eq_getApp (apps : List (Option AppConfig)) (appID : String) :
    ExistAppID apps appID = (GetApp apps appID).map Option.isSome := by
  induction apps with
  | nil => rfl
  | cons a apps ih =>
    cases a with
    | none => rfl
    | some v =>
      by_cases h : v.ID = appID
      · simp [ExistAppID, GetApp, h, Except.map]
      · simp [ExistAppID, GetApp, h, ih]

/-- A tenant that `GetApp` resolves passes `ExistAppID` (proxy directory). -/
theorem proxy_existAppID_of_getApp (apps : List (Option AppConfig)) (appID : String)
    (app : AppConfig) (h : GetApp apps appID = .ok (some app)) :
    ExistAppID apps appID = .ok true := by
  rw [proxy_existAppID_eq_getApp, h]; rfl

/-- The switch of `proxy` computes the documented row: host, mutated query, and nothing
changed outside the row's parameter names. -/
theorem routeSwitch_rowFor (env : Env) (app : AppConfig) (path : String) (q : StrMap) :
    (routeSwitch env app path q).1 = (rowFor path).host ∧
    (routeSwitch env app path q).2.1 = applyMutation env app q (rowFor path).mutation ∧
    (∀ k, k ∉ (rowFor path).mutation.map Prod.fst →
      StrMap.lookup (routeSwitch env app path q).2.1 k = StrMap.lookup q k) := by
  have frame1 : ∀ (k1 v1 k : String), k ≠ k1 →
      StrMap.lookup (StrMap.store q k1 [v1]) k = StrMap.lookup q k :=
    fun k1 v1 k h => StrMap.lookup_store_ne q k1 k [v1] h
  have frame2 : ∀ (k1 v1 k2 v2 k : String), k ≠ k1 → k ≠ k2 →
      StrMap.lookup (StrMap.store (StrMap.store q k1 [v1]) k2 [v2]) k = StrMap.lookup q k :=
    fun k1 v1 k2 v2 k h1 h2 => by
      rw [StrMap.lookup_store_ne _ k2 k [v2] h2, StrMap.lookup_store_ne q k1 k [v1] h1]
  unfold routeSwitch rowFor
  split_ifs with h1 h2 h3 h4
  · rcases h1 with h1 | h1 <;> subst h1 <;>
      simp [routingTable, applyMutation, credentialValue, StrMap.Set] <;>
      exact fun k h1 h2 => frame2 _ _ _ _ k h1 h2
  · subst h2
    simp [routingTable, applyMutation, credentialValue, StrMap.Set]
    exact fun k h1 => frame1 _ _ k h1
  · subst h3
    simp [routingTable, applyMutation, credentialValue, StrMap.Set]
    exact fun k h1 => frame1 _ _ k h1
  · subst h4
    simp [routingTable, applyMutation, credentialValue, StrMap.Set]
    exact fun k h1 h2 => frame2 _ _ _ _ k h1 h2
  · have h1a : ¬ path = "/sns/oauth2/access_token" := fun h => h1 (Or.inl h)
    have h1b : ¬ path = "/sns/jscode2session" := fun h => h1 (Or.inr h)
    simp [routingTable, applyMutation, credentialValue, StrMap.Set, defaultRow,
      h1a, h1b, h2, h3, h4]
    exact fun k h1 => frame1 _ _ k h1


/-- Replacing the writer of a context leaves its chain, index and trace alone. -/
theorem withWriter_frame {H : Type} (c c' : Context H) (r : Except Fault ResponseWriter)
    (h : c.withWriter r = .ok c') :
    c'.index = c.index ∧ c'.handlers = c.handlers ∧ c'.trace = c.trace := by
  cases r with
  | error f => cases h
  | ok w => injection h with h; subst h; exact ⟨rfl, rfl, rfl⟩

/-- The call of `String` with a final status code that allows a body, on a context of
which nothing has been handed on, leaves the chain, its index and the trace alone. -/
theorem String_frame {H : Type} (c c' : Context H) (code : Int) (format : String)
    (hw : c.Writer.written = false) (hh : c.Writer.wroteHeader = false)
    (hc : 200 ≤ code ∧ code ≤ 999) (hb : code ≠ 204 ∧ code ≠ 304)
    (h : c.String code format = .ok c') :
    c'.index = c.index ∧ c'.handlers = c.handlers ∧ c'.trace = c.trace := by
  rw [String_first c code format hw hh hc hb] at h
  injection h with h
  subst h
  exact ⟨rfl, rfl, rfl⟩

/-- The handler `proxy`, on a context of which nothing has been handed on, leaves the
chain and its index alone. -/
theorem proxy_frame {H : Type} (env : Env) (ctx c : Context H)
    (hw : ctx.Writer.written = false) (hh : ctx.Writer.wroteHeader = false)
    (h : proxy env ctx = .ok c) :
    c.index = ctx.index ∧ c.handlers = ctx.handlers := by
  unfold proxy at h
  cases hg : GetApp env.Apps (ctx.Param "appid") with
  | error f => simp only [hg] at h; cases h
  | ok r =>
    cases r with
    | none => simp only [hg] at h; cases h
    | some app =>
      simp only [hg] at h
      cases hp : env.Parse ((routeSwitch env app (ctx.Param "path")
          (env.Query ctx.Request.URL.RawQuery)).1 ++ ctx.Param "path") with
      | error e =>
        simp only [hp] at h
        injection h with h
        subst h
        exact ⟨rfl, rfl⟩
      | ok u =>
        simp only [hp] at h
        split at h
        · obtain ⟨h1, h2, _⟩ := String_frame _ _ 502 _ (by exact hw) (by exact hh)
            (by decide) (by decide) h
          exact ⟨h1, h2⟩
        · obtain ⟨h1, h2, _⟩ := withWriter_frame _ _ _ h
          exact ⟨h1, h2⟩

/-- A proxied request of a known tenant runs `proxy` on the fresh context; a panic of
`proxy` is the panic of the request, and otherwise the request is ended. -/
theorem serveProxy_known (env : Env) (n : Nat) (appid path : String) (req : Request)
    (app : AppConfig) (hknown : GetApp env.Apps appid = .ok (some app)) :
    serveProxy env (n + 5) appid path req =
      match proxy env (freshContext proxyChain [("appid", appid), ("path", path)] req 1) with
      | .error a => .error a
      | .ok c1 => finishRequest { c1 with index := 3 } := by
  have hex := proxy_existAppID_of_getApp env.Apps appid app hknown
  have hserve := Gin.serve_two (handle env) n Handler.checkAppID Handler.proxy
    [("appid", appid), ("path", path)] req
    (by simp [handle, checkAppID, hex])
    (by
      intro c hc
      obtain ⟨h1, h2⟩ := proxy_frame env _ c rfl rfl hc
      exact ⟨by rw [h1]; simp, h2⟩)
  rw [serveProxy, proxyChain, hserve]
  simp only [handle]
  cases hp : proxy env (freshContext [Handler.checkAppID, Handler.proxy]
      [("appid", appid), ("path", path)] req 1) with
  | error a => rfl
  | ok c1 =>
    obtain ⟨h1, _⟩ := proxy_frame env _ c1 rfl rfl hp
    have h3 : c1.index + 2 = 3 := by rw [h1]; rfl
    simp only [h3]

/-- The path parameter `path` of a fresh proxy context. -/
@[simp]
theorem freshContext_Param_path {H : Type} (chain : List H) (appid path : String)
    (req : Request) (i : Int) :
    (freshContext chain [("appid", appid), ("path", path)] req i).Param "path" = path := by
  simp [freshContext, Context.Param, List.find?]

/-- The result of `proxy` for a known tenant, by the outcome of `url.Parse` and of the
round trip. -/
theorem proxy_known {H : Type} (env : Env) (ctx : Context H) (app : AppConfig)
    (hknown : GetApp env.Apps (ctx.Param "appid") = .ok (some app)) :
    proxy env ctx =
      let r := routeSwitch env app (ctx.Param "path") (env.Query ctx.Request.URL.RawQuery)
      let ctx1 : Context H := { ctx with trace := ctx.trace ++ r.2.2 }
      match env.Parse (r.1 ++ ctx.Param "path") with
      | .error _ => .ok (ctx1.Status 400)
      | .ok u =>
        let ctx2 := ctx1.emit (Event.roundTrip (outboundRequest env ctx.Request u r.2.1))
        match env.RoundTrip (outboundRequest env ctx.Request u r.2.1) with
        | .error _ => ctx2.String 502 "请求接口出错"
        | .ok resp =>
          let hdr := copyHeader env.CanonicalMIMEHeaderKey resp.Header ctx.Writer.header
          let w : ResponseWriter := { ctx.Writer with header := hdr }
          let ctx3 : Context H := { ctx2 with Writer := w.WriteHeader resp.StatusCode }
          ctx3.withWriter (ioCopy ctx3.Writer resp.Body) := by
  simp only [proxy, hknown]
  rfl

/-- A known tenant whose target URL does not parse: 400, nothing written, only the cache
lookups of the switch in the trace. -/
theorem serveProxy_unparsed (env : Env) (n : Nat) (appid path : String) (req : Request)
    (app : AppConfig) (e : String) (hknown : GetApp env.Apps appid = .ok (some app))
    (hparse : env.Parse
      ((routeSwitch env app path (env.Query req.URL.RawQuery)).1 ++ path) = .error e) :
    ∃ c, serveProxy env (n + 5) appid path req = .ok c ∧
      c.Writer.status = 400 ∧ c.Writer.body = "" ∧ c.Writer.header = [] ∧
      c.trace = (routeSwitch env app path (env.Query req.URL.RawQuery)).2.2 ∧
      c.Writer.wroteHeader = true ∧ c.Writer.sent = 400 := by
  have hserve := serveProxy_known env n appid path req app hknown
  rw [proxy_known env _ app (by simpa using hknown)] at hserve
  simp only [freshContext_Param_path, freshContext_Request, hparse] at hserve
  rw [finishRequest_final _ rfl rfl (Or.inr (by simp [Status_status]))] at hserve
  refine ⟨_, hserve, ?_, ?_, ?_, ?_, rfl, ?_⟩
  · simp [Status_status]
  · simp [freshContext]
  · simp [freshContext]
  · simp [freshContext]
  · simp [Status_status]

/-- A known tenant whose round trip fails: 502, the fixed body, the content type, and one
call of the transport. -/
theorem serveProxy_failed (env : Env) (n : Nat) (appid path : String) (req : Request)
    (app : AppConfig) (u : URL) (e : String)
    (hknown : GetApp env.Apps appid = .ok (some app))
    (hparse : env.Parse
      ((routeSwitch env app path (env.Query req.URL.RawQuery)).1 ++ path) = .ok u)
    (hrt : env.RoundTrip (outboundRequest env req u
      (routeSwitch env app path (env.Query req.URL.RawQuery)).2.1) = .error e) :
    ∃ c, serveProxy env (n + 5) appid path req = .ok c ∧
      c.Writer.status = 502 ∧ c.Writer.body = "请求接口出错" ∧
      c.Writer.header = [("Content-Type", ["text/plain; charset=utf-8"])] ∧
      c.trace = (routeSwitch env app path (env.Query req.URL.RawQuery)).2.2 ++
        [Event.roundTrip (outboundRequest env req u
          (routeSwitch env app path (env.Query req.URL.RawQuery)).2.1)] ∧
      c.Writer.wroteHeader = true ∧ c.Writer.sent = 502 := by
  have hserve := serveProxy_known env n appid path req app hknown
  rw [proxy_known env _ app (by simpa using hknown)] at hserve
  simp only [freshContext_Param_path, freshContext_Request, hparse, hrt] at hserve
  rw [String_first _ 502 _ rfl rfl (by decide) (by decide)] at hserve
  simp only at hserve
  rw [finishRequest_written _ rfl rfl] at hserve
  refine ⟨_, hserve, rfl, ?_, ?_, ?_, rfl, rfl⟩
  · simp [freshContext]
  · simp [writeContentType, freshContext, StrMap.get, StrMap.lookup, StrMap.store,
      StrMap.erase]
  · simp [freshContext]

/-- A known tenant whose round trip succeeds: what is left of the request is the copy of
the body and the end of the request on the context in which the headers are copied and
the status code is stored. -/
theorem serveProxy_answered (env : Env) (n : Nat) (appid path : String) (req : Request)
    (app : AppConfig) (u : URL) (resp : Response)
    (hknown : GetApp env.Apps appid = .ok (some app))
    (hparse : env.Parse
      ((routeSwitch env app path (env.Query req.URL.RawQuery)).1 ++ path) = .ok u)
    (hrt : env.RoundTrip (outboundRequest env req u
      (routeSwitch env app path (env.Query req.URL.RawQuery)).2.1) = .ok resp) :
    serveProxy env (n + 5) appid path req =
      copyAndFinish (answeredContext env app appid path req u resp) resp.Body := by
  have hserve := serveProxy_known env n appid path req app hknown
  rw [proxy_known env _ app (by simpa using hknown)] at hserve
  simp only [freshContext_Param_path, freshContext_Request, hparse, hrt] at hserve
  rw [hserve]
  simp only [copyAndFinish, answeredContext, freshContext, Context.emit, List.nil_append,
    proxyChain]
  generalize Context.withWriter _ _ = r
  cases r <;> rfl

/-- The writer of the answered context: nothing handed on or written, the copied headers,
and as stored status the upstream code when it is positive, else 200. -/
theorem answeredContext_Writer (env : Env) (app : AppConfig) (appid path : String)
    (req : Request) (u : URL) (resp : Response) :
    (answeredContext env app appid path req u resp).Writer.written = false ∧
    (answeredContext env app appid path req u resp).Writer.wroteHeader = false ∧
    (answeredContext env app appid path req u resp).Writer.body = "" ∧
    (answeredContext env app appid path req u resp).Writer.informational = [] ∧
    (answeredContext env app appid path req u resp).Writer.header
      = copyHeader env.CanonicalMIMEHeaderKey resp.Header [] ∧
    (answeredContext env app appid path req u resp).Writer.status
      = (if 0 < resp.StatusCode then resp.StatusCode else 200) := by
  simp only [answeredContext, ResponseWriter.WriteHeader]
  by_cases hpos : 0 < resp.StatusCode
  · by_cases heq : (200 : Int) = resp.StatusCode
    · simp [hpos, ← heq]
    · simp [hpos, heq]
  · simp [hpos]

/-- A known tenant whose round trip succeeds, in all: the trace and the header map of the
context the request ends in, and the only way it can be cut short, the panic of the
writer on a positive status code below 100 or above 999. -/
theorem serveProxy_answered_context (env : Env) (n : Nat) (appid path : String)
    (req : Request) (app : AppConfig) (u : URL) (resp : Response)
    (hknown : GetApp env.Apps appid = .ok (some app))
    (hparse : env.Parse
      ((routeSwitch env app path (env.Query req.URL.RawQuery)).1 ++ path) = .ok u)
    (hrt : env.RoundTrip (outboundRequest env req u
      (routeSwitch env app path (env.Query req.URL.RawQuery)).2.1) = .ok resp) :
    (contextOf (serveProxy env (n + 5) appid path req)).trace =
      (routeSwitch env app path (env.Query req.URL.RawQuery)).2.2 ++
        [Event.roundTrip (outboundRequest env req u
          (routeSwitch env app path (env.Query req.URL.RawQuery)).2.1)] ∧
    (contextOf (serveProxy env (n + 5) appid path req)).Writer.header =
      copyHeader env.CanonicalMIMEHeaderKey resp.Header [] ∧
    (∀ a, serveProxy env (n + 5) appid path req = .error a →
      a.fault = Fault.invalidWriteHeaderCode ∧ 0 < resp.StatusCode ∧
      (resp.StatusCode < 100 ∨ 999 < resp.StatusCode)) := by
  rw [serveProxy_answered env n appid path req app u resp hknown hparse hrt]
  obtain ⟨hw, hh, hb, _, hhd, hst⟩ := answeredContext_Writer env app appid path req u resp
  have htr : (answeredContext env app appid path req u resp).trace =
      (routeSwitch env app path (env.Query req.URL.RawQuery)).2.2 ++
        [Event.roundTrip (outboundRequest env req u
          (routeSwitch env app path (env.Query req.URL.RawQuery)).2.1)] := rfl
  by_cases hinv : (answeredContext env app appid path req u resp).Writer.status < 100 ∨
      999 < (answeredContext env app appid path req u resp).Writer.status
  · obtain ⟨a, ha, hf, ht, hd⟩ := copyAndFinish_invalid _ resp.Body hw hh hinv
    rw [ha]
    refine ⟨by rw [← htr]; exact ht, by rw [← hhd]; exact hd, ?_⟩
    intro a' ha'
    cases ha'
    refine ⟨hf, ?_⟩
    rw [hst] at hinv
    by_cases hpos : 0 < resp.StatusCode
    · rw [if_pos hpos] at hinv
      exact ⟨hpos, hinv⟩
    · rw [if_neg hpos] at hinv
      omega
  · by_cases hint : 100 ≤ (answeredContext env app appid path req u resp).Writer.status ∧
        (answeredContext env app appid path req u resp).Writer.status ≤ 199 ∧
        (answeredContext env app appid path req u resp).Writer.status ≠ 101
    · obtain ⟨c, hc, _, _, _, _, _, hd, ht⟩ := copyAndFinish_interim _ resp.Body hw hh hb hint
      rw [hc]
      refine ⟨by rw [← htr]; exact ht, by rw [← hhd]; exact hd, ?_⟩
      intro a' ha'
      cases ha'
    · obtain ⟨c, hc, _, _, _, _, _, hd, ht⟩ := copyAndFinish_final _ resp.Body hw hh hb
        (by omega)
      rw [hc]
      refine ⟨by rw [← htr]; exact ht, by rw [← hhd]; exact hd, ?_⟩
      intro a' ha'
      cases ha'

/-- The switch of `proxy` makes no call of the transport. -/
theorem routeSwitch_lookups (env : Env) (app : AppConfig) (path : String) (q : StrMap) :
    (routeSwitch env app path q).2.2.filter Event.isRoundTrip = [] := by
  unfold routeSwitch
  split_ifs <;> simp [Event.isRoundTrip]

/-- The default case of the switch. -/
theorem routeSwitch_default (env : Env) (app : AppConfig) (path : String) (q : StrMap)
    (h : defaultRouted path) :
    routeSwitch env app path q =
      ("https://api.weixin.qq.com",
        StrMap.Set q "access_token" (getRedisValue env app.RedisAccessTokenKey),
        [Event.redisGet app.RedisAccessTokenKey]) := by
  obtain ⟨h1, h2, h3, h4, h5⟩ := h
  simp [routeSwitch, h1, h2, h3, h4, h5]

/-- A cache lookup that ends in an error gives the empty string. -/
theorem getRedisValue_of_error (env : Env) (key : String)
    (h : (env.RedisGet key).err ≠ none) : getRedisValue env key = "" := by
  unfold getRedisValue
  cases herr : (env.RedisGet key).err with
  | none => exact absurd herr h
  | some e => cases e <;> simp [herr]

/-- A known tenant whose target URL parses: the transport is called once, after the cache
lookups of the switch, with the outbound request; and the request is served to its end
unless the upstream answers with a positive status code below 100 or above 999, on which
the response writer panics. -/
theorem serveProxy_sent (env : Env) (n : Nat) (appid path : String) (req : Request)
    (app : AppConfig) (u : URL) (hknown : GetApp env.Apps appid = .ok (some app))
    (hparse : env.Parse
      ((routeSwitch env app path (env.Query req.URL.RawQuery)).1 ++ path) = .ok u) :
    (contextOf (serveProxy env (n + 5) appid path req)).trace =
      (routeSwitch env app path (env.Query req.URL.RawQuery)).2.2 ++
        [Event.roundTrip (outboundRequest env req u
          (routeSwitch env app path (env.Query req.URL.RawQuery)).2.1)] ∧
    (∀ a, serveProxy env (n + 5) appid path req = .error a →
      a.fault = Fault.invalidWriteHeaderCode ∧
      ∃ resp, env.RoundTrip (outboundRequest env req u
          (routeSwitch env app path (env.Query req.URL.RawQuery)).2.1) = .ok resp ∧
        0 < resp.StatusCode ∧ (resp.StatusCode < 100 ∨ 999 < resp.StatusCode)) := by
  cases hrt : env.RoundTrip (outboundRequest env req u
      (routeSwitch env app path (env.Query req.URL.RawQuery)).2.1) with
  | error e =>
    obtain ⟨c, hc, _, _, _, ht, _⟩ :=
      serveProxy_failed env n appid path req app u e hknown hparse hrt
    rw [hc]
    exact ⟨ht, fun a ha => by cases ha⟩
  | ok resp =>
    obtain ⟨ht, _, hf⟩ :=
      serveProxy_answered_context env n appid path req app u resp hknown hparse hrt
    exact ⟨ht, fun a ha => ⟨(hf a ha).1, resp, rfl, (hf a ha).2⟩⟩

/-- The inner loop of the header copy appends the values under the canonical name of the key
and changes no other name. -/
theorem get_addValues (canon : String → String) (key : String) (vals : List String)
    (h : StrMap) (name : String) :
    StrMap.get (addValues canon key vals h) name =
      StrMap.get h name ++ (if canon key = name then vals else []) := by
  induction vals generalizing h with
  | nil => simp [addValues]
  | cons v vals ih =>
    rw [addValues, ih]
    by_cases hk : canon key = name
    · subst hk
      simp [StrMap.Add, StrMap.get_store_same]
    · have hk' : name ≠ canon key := fun h' => hk h'.symm
      simp [StrMap.Add, StrMap.get_store_ne _ _ _ _ hk', hk]

/-- The header copy, name by name: the former values, then the values of the upstream
headers that are not skipped and whose canonical name is that name, in upstream order. -/
theorem get_copyHeader (canon : String → String) (up h : StrMap) (name : String) :
    StrMap.get (copyHeader canon up h) name =
      StrMap.get h name ++
        ((up.filter (fun e => !skipsHeader e.1 && decide (canon e.1 = name))).flatMap
          (fun e => e.2)) := by
  induction up generalizing h with
  | nil => simp [copyHeader]
  | cons e up ih =>
    obtain ⟨key, value⟩ := e
    by_cases hs : skipsHeader key = true
    · have hs' : (EqualFold key "Content-Length" || EqualFold key "Connection") = true := hs
      simp [copyHeader, hs', ih, List.filter, hs]
    · have hs' : ¬ (EqualFold key "Content-Length" || EqualFold key "Connection") = true := hs
      rw [copyHeader, if_neg hs', ih, get_addValues]
      by_cases hk : canon key = name
      · simp [List.filter, hs, hk, List.flatMap_cons]
      · simp [List.filter, hs, hk]

/-- The image of a member is a block of the flattened images. -/
theorem infix_flatMap_of_mem {α β : Type} (f : α → List β) (l : List α) (a : α)
    (h : a ∈ l) : f a <:+: l.flatMap f := by
  induction l with
  | nil => cases h
  | cons b l ih =>
    rw [List.flatMap_cons]
    rcases List.mem_cons.mp h with h | h
    · subst h
      exact ⟨[], l.flatMap f, by simp⟩
    · obtain ⟨s, t, hst⟩ := ih h
      exact ⟨f b ++ s, t, by simp [← hst]⟩

/-- Claim C4. Response header filtering: after the copy loop the client header holds, under
each name, its former values followed by the values of the upstream headers that are not
named `Content-Length` or `Connection` under `strings.EqualFold` and whose canonical name
is that name, in upstream order; so the result is the same as if the skipped headers had
not been there, no value at all is added when every upstream header is skipped, and the
values of every other upstream header appear together and in order under its canonical
name. On a successful round trip this is the header map of the response of `proxy`, in
the context the request ends in (also when the response writer then panics on the status
code), and the request is served to its end unless the upstream status code is positive
and below 100 or above 999. -/
theorem header_filtering (env : Env) (up h0 : StrMap) :
    (∀ name, StrMap.get (copyHeader env.CanonicalMIMEHeaderKey up h0) name =
      StrMap.get h0 name ++
        ((up.filter (fun e =>
            !skipsHeader e.1 && decide (env.CanonicalMIMEHeaderKey e.1 = name))).flatMap
          (fun e => e.2))) ∧
    (∀ name, StrMap.get (copyHeader env.CanonicalMIMEHeaderKey up h0) name =
      StrMap.get (copyHeader env.CanonicalMIMEHeaderKey
        (up.filter (fun e => !skipsHeader e.1)) h0) name) ∧
    ((∀ e ∈ up, skipsHeader e.1 = true) →
      ∀ name, StrMap.get (copyHeader env.CanonicalMIMEHeaderKey up h0) name
        = StrMap.get h0 name) ∧
    (∀ key value, (key, value) ∈ up → skipsHeader key = false →
      value <:+: StrMap.get (copyHeader env.CanonicalMIMEHeaderKey up h0)
        (env.CanonicalMIMEHeaderKey key)) ∧
    (∀ (n : Nat) (appid path : String) (req : Request) (app : AppConfig) (u : URL)
      (resp : Response),
      GetApp env.Apps appid = .ok (some app) →
      env.Parse ((routeSwitch env app path (env.Query req.URL.RawQuery)).1 ++ path)
        = .ok u →
      env.RoundTrip (outboundRequest env req u
        (routeSwitch env app path (env.Query req.URL.RawQuery)).2.1) = .ok resp →
      resp.Header = up →
      (contextOf (serveProxy env (n + 5) appid path req)).Writer.header
        = copyHeader env.CanonicalMIMEHeaderKey up [] ∧
      (¬ (0 < resp.StatusCode ∧ (resp.StatusCode < 100 ∨ 999 < resp.StatusCode)) →
        ∃ c, serveProxy env (n + 5) appid path req = .ok c ∧
          c.Writer.header = copyHeader env.CanonicalMIMEHeaderKey up [])) := by
  refine ⟨get_copyHeader _ up h0, ?_, ?_, ?_, ?_⟩
  · intro name
    rw [get_copyHeader, get_copyHeader, List.filter_filter]
    congr 2
    apply List.filter_congr
    intro e _
    cases skipsHeader e.1 <;> simp
  · intro hall name
    rw [get_copyHeader]
    have : up.filter (fun e =>
        !skipsHeader e.1 && decide (env.CanonicalMIMEHeaderKey e.1 = name)) = [] := by
      rw [List.filter_eq_nil_iff]
      intro e he
      simp [hall e he]
    simp [this]
  · intro key value hmem hs
    rw [get_copyHeader]
    have hin : (key, value) ∈ up.filter (fun e => !skipsHeader e.1 &&
        decide (env.CanonicalMIMEHeaderKey e.1 = env.CanonicalMIMEHeaderKey key)) := by
      rw [List.mem_filter]
      exact ⟨hmem, by simp [hs]⟩
    exact (infix_flatMap_of_mem (fun e => e.2) _ (key, value) hin).trans
      (List.infix_append' (StrMap.get h0 (env.CanonicalMIMEHeaderKey key)) _ []
        |> fun x => by simpa using x)
  · intro n appid path req app u resp hknown hparse hrt hup
    obtain ⟨_, hh, hf⟩ :=
      serveProxy_answered_context env n appid path req app u resp hknown hparse hrt
    rw [hup] at hh
    refine ⟨hh, fun hvalid => ?_⟩
    cases hr : serveProxy env (n + 5) appid path req with
    | error a => exact absurd (hf a hr).2 hvalid
    | ok c =>
      rw [hr] at hh
      exact ⟨c, rfl, hh⟩

/-- Claim C4 at an upstream answer with the headers `Content-Length`, `connection` and
`X-Trace`: only the values of `X-Trace` reach the client, in order. -/
theorem header_filtering_witness :
    ∃ c, serveProxy (sampleEnv emptyCache (sampleTransport 200)) 5 "acme" "/cgi-bin/user/get"
        sampleRequest = .ok c ∧
      StrMap.get c.Writer.header "X-Trace" = ["a", "b"] ∧
      StrMap.get c.Writer.header "Content-Length" = [] ∧
      StrMap.get c.Writer.header "connection" = [] := by
  obtain ⟨c, hc, hh⟩ := ((header_filtering (sampleEnv emptyCache (sampleTransport 200))
    [("Content-Length", ["2"]), ("connection", ["close"]), ("X-Trace", ["a", "b"])] []).2.2.2.2
    0 "acme" "/cgi-bin/user/get" sampleRequest
    { ID := "acme", Secret := "s3cret", RedisJsAPITicketKey := "acme:ticket",
      RedisAccessTokenKey := "acme:token" }
    { Scheme := "https", Host := "", Path := "https://api.weixin.qq.com/cgi-bin/user/get",
      RawQuery := "" }
    { StatusCode := 200,
      Header := [("Content-Length", ["2"]), ("connection", ["close"]),
        ("X-Trace", ["a", "b"])],
      Body := "ok" } rfl rfl rfl rfl).2 (by decide)
  refine ⟨c, hc, ?_, ?_, ?_⟩ <;> rw [hh] <;> rfl

/-- The guard of the proxy server on an unknown tenant id. -/
theorem proxy_guard_unknown (penv : Env) (n : Nat)
    (appid path : String) (req : Request) :
    (ExistAppID penv.Apps appid = .ok false →
      ∃ c, serveProxy penv (n + 3) appid path req = .ok c ∧
        c.Writer.status = 404 ∧ c.Writer.body = "" ∧ c.Writer.header = [] ∧
        c.trace = [] ∧ abortIndex ≤ c.index) := by
  intro hno
  have := Gin.serve_abort (handle penv) n Handler.checkAppID [Handler.proxy]
    [("appid", appid), ("path", path)] req
    (((freshContext proxyChain [("appid", appid), ("path", path)] req 0).Status 404).Abort)
    (by simp [handle, checkAppID, hno, proxyChain]) (by simp [Context.Abort, abortIndex])
    (by simp [Context.Abort, proxyChain])
  rw [finishRequest_final _ rfl rfl (Or.inr (by simp [Context.Abort, Status_status]))] at this
  refine ⟨_, this, ?_, ?_, ?_, ?_, ?_⟩
  · simp [Context.Abort, Status_status]
  · simp [Context.Abort, freshContext]
  · simp [Context.Abort, freshContext]
  · simp [Context.Abort, freshContext]
  · simp [Context.Abort, abortIndex]

/-- One `Set` injects its parameter. -/
theorem injects_one (q : StrMap) (k v : String) :
    injects q (StrMap.Set q k v) [(k, v)] := by
  refine ⟨?_, ?_, ?_⟩
  · intro p hp
    simp only [List.mem_singleton] at hp
    subst hp
    exact ⟨StrMap.lookup_store_same q k [v], StrMap.entries_store_same q k [v]⟩
  · intro k' hk'
    have hne : k' ≠ k := by simpa using hk'
    exact ⟨StrMap.lookup_store_ne q k k' [v] hne, StrMap.entries_store_ne q k k' [v] hne⟩
  · exact StrMap.others_store q k [v] _ (by simp)

/-- Two `Set` calls under different names inject both parameters. -/
theorem injects_two (q : StrMap) (k1 v1 k2 v2 : String) (hne : k1 ≠ k2) :
    injects q (StrMap.Set (StrMap.Set q k1 v1) k2 v2) [(k1, v1), (k2, v2)] := by
  refine ⟨?_, ?_, ?_⟩
  · intro p hp
    simp only [List.mem_cons, List.mem_singleton, List.not_mem_nil, or_false] at hp
    rcases hp with hp | hp
    · subst hp
      refine ⟨?_, ?_⟩
      · show StrMap.lookup (StrMap.store (StrMap.store q k1 [v1]) k2 [v2]) k1 = some [v1]
        rw [StrMap.lookup_store_ne _ k2 k1 [v2] hne, StrMap.lookup_store_same]
      · show StrMap.entries (StrMap.store (StrMap.store q k1 [v1]) k2 [v2]) k1 = [[v1]]
        rw [StrMap.entries_store_ne _ k2 k1 [v2] hne, StrMap.entries_store_same]
    · subst hp
      exact ⟨StrMap.lookup_store_same _ k2 [v2], StrMap.entries_store_same _ k2 [v2]⟩
  · intro k' hk'
    have h1 : k' ≠ k1 := by
      intro h; apply hk'; simp [h]
    have h2 : k' ≠ k2 := by
      intro h; apply hk'; simp [h]
    refine ⟨?_, ?_⟩
    · show StrMap.lookup (StrMap.store (StrMap.store q k1 [v1]) k2 [v2]) k' = _
      rw [StrMap.lookup_store_ne _ k2 k' [v2] h2, StrMap.lookup_store_ne q k1 k' [v1] h1]
    · show StrMap.entries (StrMap.store (StrMap.store q k1 [v1]) k2 [v2]) k' = _
      rw [StrMap.entries_store_ne _ k2 k' [v2] h2, StrMap.entries_store_ne q k1 k' [v1] h1]
  · show StrMap.others (StrMap.store (StrMap.store q k1 [v1]) k2 [v2]) _ = _
    rw [StrMap.others_store _ k2 [v2] _ (by simp), StrMap.others_store q k1 [v1] _ (by simp)]

/-- Claim C3. Credential injection overwrites and frames: for every subpath and every
client query, in the query after the switch of `proxy` each parameter the route injects
is stored in exactly one entry holding exactly one value, the injected credential, so that
none of the values the client supplied under that name is left; every other parameter
name keeps its entries, and the entries outside the injected names are the client's, in
the same order. For a known tenant whose target URL parses, the one request handed to the
transport carries `Encode` of that query as its raw query, and the request is served to
its end unless the upstream answers with a positive status code below 100 or above 999
(on which the response writer panics, after the transport has been called). -/
theorem credential_injection (env : Env) (app : AppConfig) (path : String) (q : StrMap) :
    ((path = "/sns/oauth2/access_token" ∨ path = "/sns/jscode2session") →
      injects q (routeSwitch env app path q).2.1
        [("appid", app.ID), ("secret", app.Secret)]) ∧
    (path = "/sns/oauth2/refresh_token" →
      injects q (routeSwitch env app path q).2.1 [("appid", app.ID)]) ∧
    (path = "/cgi-bin/showqrcode" →
      injects q (routeSwitch env app path q).2.1
        [("ticket", getRedisValue env app.RedisJsAPITicketKey)]) ∧
    (path = "/cgi-bin/gettoken" →
      injects q (routeSwitch env app path q).2.1
        [("corpid", app.ID), ("corpsecret", app.Secret)]) ∧
    (defaultRouted path →
      injects q (routeSwitch env app path q).2.1
        [("access_token", getRedisValue env app.RedisAccessTokenKey)]) ∧
    (∀ (n : Nat) (appid : String) (req : Request) (u : URL),
      GetApp env.Apps appid = .ok (some app) →
      env.Query req.URL.RawQuery = q →
      env.Parse ((routeSwitch env app path q).1 ++ path) = .ok u →
      (contextOf (serveProxy env (n + 5) appid path req)).trace.filter Event.isRoundTrip =
        [Event.roundTrip (outboundRequest env req u (routeSwitch env app path q).2.1)] ∧
      (outboundRequest env req u (routeSwitch env app path q).2.1).URL.RawQuery
        = env.Encode (routeSwitch env app path q).2.1 ∧
      (∀ a, serveProxy env (n + 5) appid path req = .error a →
        a.fault = Fault.invalidWriteHeaderCode ∧
        ∃ resp, env.RoundTrip (outboundRequest env req u (routeSwitch env app path q).2.1)
            = .ok resp ∧
          0 < resp.StatusCode ∧ (resp.StatusCode < 100 ∨ 999 < resp.StatusCode))) := by
  refine ⟨?_, ?_, ?_, ?_, ?_, ?_⟩
  · intro h
    have hr : routeSwitch env app path q = ("https://api.weixin.qq.com",
        StrMap.Set (StrMap.Set q "appid" app.ID) "secret" app.Secret, []) := by
      simp [routeSwitch, h]
    rw [hr]
    exact injects_two q _ _ _ _ (by decide)
  · intro h
    subst h
    have hr : routeSwitch env app "/sns/oauth2/refresh_token" q =
        ("https://api.weixin.qq.com", StrMap.Set q "appid" app.ID, []) := by
      simp [routeSwitch]
    rw [hr]
    exact injects_one q _ _
  · intro h
    subst h
    have hr : routeSwitch env app "/cgi-bin/showqrcode" q = ("https://mp.weixin.qq.com",
        StrMap.Set q "ticket" (getRedisValue env app.RedisJsAPITicketKey),
        [Event.redisGet app.RedisJsAPITicketKey]) := by
      simp [routeSwitch]
    rw [hr]
    exact injects_one q _ _
  · intro h
    subst h
    have hr : routeSwitch env app "/cgi-bin/gettoken" q = ("https://qyapi.weixin.qq.com",
        StrMap.Set (StrMap.Set q "corpid" app.ID) "corpsecret" app.Secret, []) := by
      simp [routeSwitch]
    rw [hr]
    exact injects_two q _ _ _ _ (by decide)
  · intro h
    rw [routeSwitch_default env app path q h]
    exact injects_one q _ _
  · intro n appid req u hknown hq hparse
    subst hq
    obtain ⟨ht, hf⟩ := serveProxy_sent env n appid path req app u hknown hparse
    refine ⟨?_, rfl, hf⟩
    rw [ht, List.filter_append, routeSwitch_lookups]
    simp [Event.isRoundTrip]

/-- Claim C3 at a refresh-token request whose client sends `appid` twice: the query that
is encoded holds `appid` once, with the tenant id alone, and the other parameter as the
client sent it; neither client value of `appid` is left in it. -/
theorem credential_injection_witness :
    injects [("appid", ["evil", "evil2"]), ("grant_type", ["refresh_token", "x"])]
      (routeSwitch (sampleEnv emptyCache failingTransport)
        { ID := "acme", Secret := "s3cret", RedisJsAPITicketKey := "acme:ticket",
          RedisAccessTokenKey := "acme:token" }
        "/sns/oauth2/refresh_token"
        [("appid", ["evil", "evil2"]), ("grant_type", ["refresh_token", "x"])]).2.1
      [("appid", "acme")] ∧
    (routeSwitch (sampleEnv emptyCache failingTransport)
        { ID := "acme", Secret := "s3cret", RedisJsAPITicketKey := "acme:ticket",
          RedisAccessTokenKey := "acme:token" }
        "/sns/oauth2/refresh_token"
        [("appid", ["evil", "evil2"]), ("grant_type", ["refresh_token", "x"])]).2.1
      = [("appid", ["acme"]), ("grant_type", ["refresh_token", "x"])] ∧
    sampleEncode (routeSwitch (sampleEnv emptyCache failingTransport)
        { ID := "acme", Secret := "s3cret", RedisJsAPITicketKey := "acme:ticket",
          RedisAccessTokenKey := "acme:token" }
        "/sns/oauth2/refresh_token"
        [("appid", ["evil", "evil2"]), ("grant_type", ["refresh_token", "x"])]).2.1
      = "appid=acme&grant_type=refresh_token&grant_type=x&" :=
  ⟨(credential_injection (sampleEnv emptyCache failingTransport)
    { ID := "acme", Secret := "s3cret", RedisJsAPITicketKey := "acme:ticket",
      RedisAccessTokenKey := "acme:token" }
    "/sns/oauth2/refresh_token"
    [("appid", ["evil", "evil2"]), ("grant_type", ["refresh_token", "x"])]).2.1 rfl,
   rfl, rfl⟩

/-- A known tenant whose round trip succeeds, by the class of the upstream status code. -/
theorem serveProxy_answered_cases (env : Env) (n : Nat) (appid path : String)
    (req : Request) (app : AppConfig) (u : URL) (resp : Response)
    (hknown : GetApp env.Apps appid = .ok (some app))
    (hparse : env.Parse
      ((routeSwitch env app path (env.Query req.URL.RawQuery)).1 ++ path) = .ok u)
    (hrt : env.RoundTrip (outboundRequest env req u
      (routeSwitch env app path (env.Query req.URL.RawQuery)).2.1) = .ok resp) :
    (200 ≤ resp.StatusCode ∧ resp.StatusCode ≤ 999 →
      ∃ c, serveProxy env (n + 5) appid path req = .ok c ∧
        c.Writer.status = resp.StatusCode ∧ c.Writer.wroteHeader = true ∧
        c.Writer.sent = resp.StatusCode ∧
        c.Writer.body
          = (if resp.StatusCode = 204 ∨ resp.StatusCode = 304 then "" else resp.Body)) ∧
    (resp.StatusCode ≤ 0 →
      ∃ c, serveProxy env (n + 5) appid path req = .ok c ∧
        c.Writer.status = 200 ∧ c.Writer.wroteHeader = true ∧ c.Writer.sent = 200 ∧
        c.Writer.body = resp.Body) ∧
    ((1 ≤ resp.StatusCode ∧ resp.StatusCode ≤ 99) ∨ 999 < resp.StatusCode →
      ∃ a, serveProxy env (n + 5) appid path req = .error a ∧
        a.fault = Fault.invalidWriteHeaderCode) ∧
    (resp.StatusCode = 101 →
      ∃ c, serveProxy env (n + 5) appid path req = .ok c ∧
        c.Writer.status = 101 ∧ c.Writer.wroteHeader = true ∧ c.Writer.sent = 101 ∧
        c.Writer.body = "") ∧
    (100 ≤ resp.StatusCode ∧ resp.StatusCode ≤ 199 ∧ resp.StatusCode ≠ 101 →
      ∃ c, serveProxy env (n + 5) appid path req = .ok c ∧
        c.Writer.status = resp.StatusCode ∧ c.Writer.informational = [resp.StatusCode] ∧
        c.Writer.wroteHeader = true ∧ c.Writer.sent = 200 ∧ c.Writer.body = resp.Body) := by
  rw [serveProxy_answered env n appid path req app u resp hknown hparse hrt]
  obtain ⟨hw, hh, hb, hi, _, hst⟩ := answeredContext_Writer env app appid path req u resp
  refine ⟨?_, ?_, ?_, ?_, ?_⟩
  · intro hc
    have hs : (answeredContext env app appid path req u resp).Writer.status
        = resp.StatusCode := by rw [hst, if_pos (by omega)]
    obtain ⟨c, h0, h1, h2, h3, _, h5, _⟩ := copyAndFinish_final _ resp.Body hw hh hb
      (Or.inr (by rw [hs]; exact hc))
    refine ⟨c, h0, by rw [h1, hs], h2, by rw [h3, hs], ?_⟩
    rw [h5, hs]
    have h3' : ¬ (100 ≤ resp.StatusCode ∧ resp.StatusCode ≤ 199) := by omega
    by_cases h204 : resp.StatusCode = 204
    · simp [bodyAllowedForStatus, h204]
    · by_cases h304 : resp.StatusCode = 304
      · simp [bodyAllowedForStatus, h304]
      · simp [bodyAllowedForStatus, h3', h204, h304]
  · intro hc
    have hs : (answeredContext env app appid path req u resp).Writer.status = 200 := by
      rw [hst, if_neg (by omega)]
    obtain ⟨c, h0, h1, h2, h3, _, h5, _⟩ := copyAndFinish_final _ resp.Body hw hh hb
      (Or.inr (by rw [hs]; decide))
    refine ⟨c, h0, by rw [h1, hs], h2, by rw [h3, hs], ?_⟩
    rw [h5, hs]
    simp [bodyAllowedForStatus]
  · intro hc
    have hs : (answeredContext env app appid path req u resp).Writer.status
        = resp.StatusCode := by rw [hst, if_pos (by omega)]
    obtain ⟨a, h0, h1, _⟩ := copyAndFinish_invalid _ resp.Body hw hh (by rw [hs]; omega)
    exact ⟨a, h0, h1⟩
  · intro hc
    have hs : (answeredContext env app appid path req u resp).Writer.status = 101 := by
      rw [hst, hc]; rfl
    obtain ⟨c, h0, h1, h2, h3, _, h5, _⟩ := copyAndFinish_final _ resp.Body hw hh hb
      (Or.inl hs)
    refine ⟨c, h0, by rw [h1, hs], h2, by rw [h3, hs], ?_⟩
    rw [h5, hs]
    simp [bodyAllowedForStatus]
  · intro hc
    have hs : (answeredContext env app appid path req u resp).Writer.status
        = resp.StatusCode := by rw [hst, if_pos (by omega)]
    obtain ⟨c, h0, h1, h2, h3, h4, h5, _⟩ := copyAndFinish_interim _ resp.Body hw hh hb
      (by rw [hs]; exact hc)
    exact ⟨c, h0, by rw [h1, hs], by rw [h4, hi, hs]; rfl, h2, h3, h5⟩

/-- Claim C7, as amended. Cache degradation: `getRedisValue` is the empty string when the
lookup ends in `redis.Nil` or in any other error, and the stored value otherwise. For a
known tenant and a default-routed subpath whose access-token lookup ends in an error:
the run is the same as with the empty string in the cache, so nothing in the response is
caused by the cache; when the target URL parses, the cache is asked once and the
transport is called once, with `access_token` stored once and holding exactly the empty
string, the response is 502 when the transport fails and has the upstream status code
when that is a code from 200 to 999; when the target URL does not parse, the response is
400 and no request is sent. -/
theorem cache_degradation (env : Env) :
    (∀ key, (env.RedisGet key).err = some RedisError.Nil → getRedisValue env key = "") ∧
    (∀ key msg, (env.RedisGet key).err = some (RedisError.other msg) →
      getRedisValue env key = "") ∧
    (∀ key, (env.RedisGet key).err = none →
      getRedisValue env key = (env.RedisGet key).val) ∧
    (∀ (n : Nat) (appid path : String) (req : Request) (app : AppConfig) (u : URL),
      GetApp env.Apps appid = .ok (some app) → defaultRouted path →
      (env.RedisGet app.RedisAccessTokenKey).err ≠ none →
      env.Parse ("https://api.weixin.qq.com" ++ path) = .ok u →
      (contextOf (serveProxy env (n + 5) appid path req)).trace =
        [Event.redisGet app.RedisAccessTokenKey,
          Event.roundTrip (outboundRequest env req u
            (StrMap.Set (env.Query req.URL.RawQuery) "access_token" ""))] ∧
      injects (env.Query req.URL.RawQuery)
        (StrMap.Set (env.Query req.URL.RawQuery) "access_token" "")
        [("access_token", "")] ∧
      (∀ e, env.RoundTrip (outboundRequest env req u
          (StrMap.Set (env.Query req.URL.RawQuery) "access_token" "")) = .error e →
        ∃ c, serveProxy env (n + 5) appid path req = .ok c ∧ c.Writer.status = 502) ∧
      (∀ resp, env.RoundTrip (outboundRequest env req u
          (StrMap.Set (env.Query req.URL.RawQuery) "access_token" "")) = .ok resp →
        200 ≤ resp.StatusCode ∧ resp.StatusCode ≤ 999 →
        ∃ c, serveProxy env (n + 5) appid path req = .ok c ∧
          c.Writer.status = resp.StatusCode ∧ c.Writer.sent = resp.StatusCode)) ∧
    (∀ (n : Nat) (appid path : String) (req : Request) (app : AppConfig) (e : String),
      GetApp env.Apps appid = .ok (some app) → defaultRouted path →
      (env.RedisGet app.RedisAccessTokenKey).err ≠ none →
      env.Parse ("https://api.weixin.qq.com" ++ path) = .error e →
      ∃ c, serveProxy env (n + 5) appid path req = .ok c ∧ c.Writer.status = 400 ∧
        c.Writer.sent = 400 ∧ c.trace = [Event.redisGet app.RedisAccessTokenKey]) ∧
    (∀ (n : Nat) (appid path : String) (req : Request) (app : AppConfig),
      GetApp env.Apps appid = .ok (some app) → defaultRouted path →
      (env.RedisGet app.RedisAccessTokenKey).err ≠ none →
      serveProxy env (n + 5) appid path req =
        serveProxy (withEmptyValue env app.RedisAccessTokenKey) (n + 5) appid path req) := by
  refine ⟨?_, ?_, ?_, ?_, ?_, ?_⟩
  · intro key h
    simp [getRedisValue, h]
  · intro key msg h
    simp [getRedisValue, h]
  · intro key h
    simp [getRedisValue, h]
  · intro n appid path req app u hknown hdef herr hparse
    have hr := routeSwitch_default env app path (env.Query req.URL.RawQuery) hdef
    rw [getRedisValue_of_error env _ herr] at hr
    have hparse' : env.Parse
        ((routeSwitch env app path (env.Query req.URL.RawQuery)).1 ++ path) = .ok u := by
      rw [hr]; exact hparse
    obtain ⟨ht, _⟩ := serveProxy_sent env n appid path req app u hknown hparse'
    rw [hr] at ht
    refine ⟨ht, injects_one _ _ _, ?_, ?_⟩
    · intro e hrt
      obtain ⟨c, hc, hs, _⟩ := serveProxy_failed env n appid path req app u e
        hknown hparse' (by rw [hr]; exact hrt)
      exact ⟨c, hc, hs⟩
    · intro resp hrt hcode
      obtain ⟨c, hc, hs, _, hsent, _⟩ :=
        (serveProxy_answered_cases env n appid path req app u resp hknown hparse'
          (by rw [hr]; exact hrt)).1 hcode
      exact ⟨c, hc, hs, hsent⟩
  · intro n appid path req app e hknown hdef herr hparse
    have hr := routeSwitch_default env app path (env.Query req.URL.RawQuery) hdef
    obtain ⟨c, hc, hs, _, _, ht, _, hsent⟩ := serveProxy_unparsed env n appid path req app e
      hknown (by rw [hr]; exact hparse)
    rw [hr] at ht
    exact ⟨c, hc, hs, hsent, ht⟩
  · intro n appid path req app hknown hdef herr
    have hsame : proxy (withEmptyValue env app.RedisAccessTokenKey)
        (freshContext proxyChain [("appid", appid), ("path", path)] req 1)
        = proxy env (freshContext proxyChain [("appid", appid), ("path", path)] req 1) := by
      rw [proxy_known env _ app (by simpa using hknown),
        proxy_known (withEmptyValue env app.RedisAccessTokenKey) _ app
          (by simpa using hknown)]
      simp only [freshContext_Param_path, freshContext_Request]
      rw [routeSwitch_default env app path _ hdef,
        routeSwitch_default (withEmptyValue env app.RedisAccessTokenKey) app path _ hdef,
        getRedisValue_of_error env _ herr]
      have : getRedisValue (withEmptyValue env app.RedisAccessTokenKey)
          app.RedisAccessTokenKey = "" := by
        simp [getRedisValue, withEmptyValue]
      rw [this]
      rfl
    rw [serveProxy_known env n appid path req app hknown,
      serveProxy_known (withEmptyValue env app.RedisAccessTokenKey) n appid path req app
        hknown, hsame]

/-- Claim C7, as amended, at the sample tenant with nothing in the cache: the request is
sent with an empty `access_token` and answered with the upstream status. -/
theorem cache_degradation_witness :
    (contextOf (serveProxy (sampleEnv emptyCache (sampleTransport 200)) 5 "acme"
        "/cgi-bin/user/get" sampleRequest)).trace
      = [Event.redisGet "acme:token",
        Event.roundTrip (outboundRequest (sampleEnv emptyCache (sampleTransport 200))
          sampleRequest
          { Scheme := "https", Host := "",
            Path := "https://api.weixin.qq.com/cgi-bin/user/get", RawQuery := "" }
          (StrMap.Set [] "access_token" ""))] ∧
    ∃ c, serveProxy (sampleEnv emptyCache (sampleTransport 200)) 5 "acme"
        "/cgi-bin/user/get" sampleRequest = .ok c ∧
      c.Writer.status = 200 ∧ c.Writer.sent = 200 := by
  obtain ⟨ht, _, _, hs⟩ :=
    (cache_degradation (sampleEnv emptyCache (sampleTransport 200))).2.2.2.1 0 "acme"
      "/cgi-bin/user/get" sampleRequest
      { ID := "acme", Secret := "s3cret", RedisJsAPITicketKey := "acme:ticket",
        RedisAccessTokenKey := "acme:token" }
      { Scheme := "https", Host := "",
        Path := "https://api.weixin.qq.com/cgi-bin/user/get", RawQuery := "" }
      rfl ⟨by decide, by decide, by decide, by decide, by decide⟩ (by decide) rfl
  exact ⟨ht, hs _ rfl (by decide)⟩

/-- Claim C7 as stated fails. The sample tenant is known, the subpath holds a line feed and
is default-routed, and the access-token key is absent: `url.Parse` refuses the target
URL, the response is 400 and no request is sent. -/
theorem cache_degradation_counterexample :
    ∃ app c,
      GetApp (sampleEnv emptyCache (sampleTransport 200)).Apps "acme" = .ok (some app) ∧
      defaultRouted "/bad\npath" ∧
      ((sampleEnv emptyCache (sampleTransport 200)).RedisGet app.RedisAccessTokenKey).err
        = some RedisError.Nil ∧
      serveProxy (sampleEnv emptyCache (sampleTransport 200)) 5 "acme" "/bad\npath"
        sampleRequest = .ok c ∧
      c.Writer.status = 400 ∧
      c.trace = [Event.redisGet "acme:token"] ∧
      c.trace.any Event.isRoundTrip = false :=
  ⟨_, _, rfl, ⟨by decide, by decide, by decide, by decide, by decide⟩, rfl, rfl, rfl, rfl,
    rfl⟩

/-- Claim C10, as amended. Upstream failure handling for a known tenant: if the target URL
(base URL followed by the subpath) does not parse, the response is 400 with no body and the
transport is not called; if the round trip fails, the response is 502 with the fixed body
and only the content type in its header, whatever the error; if the round trip succeeds
with a status code from 200 to 999, that code is the status of the response (stored and
sent), with the upstream body unless the code is 204 or 304. For the other codes: a code
of 0 or below leaves the status at 200; a code from 1 to 99 or above 999 makes the response
writer panic; 101 is sent as it is, without a body; any other 1xx code goes out as an
interim response and the final status is 200. The request is served to its end, or to the
panic, for every fuel from 5 on. -/
theorem upstream_failure_handling (env : Env) (n : Nat) (appid path : String)
    (req : Request) (app : AppConfig) (hknown : GetApp env.Apps appid = .ok (some app)) :
    ((∃ e, env.Parse
        ((routeSwitch env app path (env.Query req.URL.RawQuery)).1 ++ path) = .error e) →
      ∃ c, serveProxy env (n + 5) appid path req = .ok c ∧
        c.Writer.status = 400 ∧ c.Writer.sent = 400 ∧ c.Writer.body = "" ∧
        c.Writer.header = [] ∧ c.trace.any Event.isRoundTrip = false) ∧
    (∀ u e,
      env.Parse ((routeSwitch env app path (env.Query req.URL.RawQuery)).1 ++ path)
        = .ok u →
      env.RoundTrip (outboundRequest env req u
        (routeSwitch env app path (env.Query req.URL.RawQuery)).2.1) = .error e →
      ∃ c, serveProxy env (n + 5) appid path req = .ok c ∧
        c.Writer.status = 502 ∧ c.Writer.sent = 502 ∧ c.Writer.body = "请求接口出错" ∧
        c.Writer.header = [("Content-Type", ["text/plain; charset=utf-8"])]) ∧
    (∀ u resp,
      env.Parse ((routeSwitch env app path (env.Query req.URL.RawQuery)).1 ++ path)
        = .ok u →
      env.RoundTrip (outboundRequest env req u
        (routeSwitch env app path (env.Query req.URL.RawQuery)).2.1) = .ok resp →
      (200 ≤ resp.StatusCode ∧ resp.StatusCode ≤ 999 →
        ∃ c, serveProxy env (n + 5) appid path req = .ok c ∧
          c.Writer.status = resp.StatusCode ∧ c.Writer.wroteHeader = true ∧
          c.Writer.sent = resp.StatusCode ∧
          c.Writer.body
            = (if resp.StatusCode = 204 ∨ resp.StatusCode = 304 then "" else resp.Body)) ∧
      (resp.StatusCode ≤ 0 →
        ∃ c, serveProxy env (n + 5) appid path req = .ok c ∧
          c.Writer.status = 200 ∧ c.Writer.wroteHeader = true ∧ c.Writer.sent = 200 ∧
          c.Writer.body = resp.Body) ∧
      ((1 ≤ resp.StatusCode ∧ resp.StatusCode ≤ 99) ∨ 999 < resp.StatusCode →
        ∃ a, serveProxy env (n + 5) appid path req = .error a ∧
          a.fault = Fault.invalidWriteHeaderCode) ∧
      (resp.StatusCode = 101 →
        ∃ c, serveProxy env (n + 5) appid path req = .ok c ∧
          c.Writer.status = 101 ∧ c.Writer.wroteHeader = true ∧ c.Writer.sent = 101 ∧
          c.Writer.body = "") ∧
      (100 ≤ resp.StatusCode ∧ resp.StatusCode ≤ 199 ∧ resp.StatusCode ≠ 101 →
        ∃ c, serveProxy env (n + 5) appid path req = .ok c ∧
          c.Writer.status = resp.StatusCode ∧ c.Writer.informational = [resp.StatusCode] ∧
          c.Writer.wroteHeader = true ∧ c.Writer.sent = 200 ∧
          c.Writer.body = resp.Body)) := by
  refine ⟨?_, ?_, ?_⟩
  · rintro ⟨e, hparse⟩
    obtain ⟨c, hc, hs, hb, hh, ht, _, hsent⟩ :=
      serveProxy_unparsed env n appid path req app e hknown hparse
    refine ⟨c, hc, hs, hsent, hb, hh, ?_⟩
    have := routeSwitch_lookups env app path (env.Query req.URL.RawQuery)
    rw [← ht] at this
    rw [List.any_eq_false]
    intro x hx hx'
    have : x ∈ c.trace.filter Event.isRoundTrip := List.mem_filter.mpr ⟨hx, hx'⟩
    simp_all
  · intro u e hparse hrt
    obtain ⟨c, hc, hs, hb, hh, _, _, hsent⟩ :=
      serveProxy_failed env n appid path req app u e hknown hparse hrt
    exact ⟨c, hc, hs, hsent, hb, hh⟩
  · intro u resp hparse hrt
    exact serveProxy_answered_cases env n appid path req app u resp hknown hparse hrt

/-- Claim C10, as amended, at a transport that fails: 502 with the fixed body. -/
theorem upstream_failure_handling_witness :
    ∃ c, serveProxy (sampleEnv emptyCache failingTransport) 5 "acme" "/cgi-bin/user/get"
        sampleRequest = .ok c ∧
      c.Writer.status = 502 ∧ c.Writer.sent = 502 ∧ c.Writer.body = "请求接口出错" ∧
      c.Writer.header = [("Content-Type", ["text/plain; charset=utf-8"])] :=
  (upstream_failure_handling
    (sampleEnv emptyCache failingTransport) 0 "acme" "/cgi-bin/user/get" sampleRequest
    { ID := "acme", Secret := "s3cret", RedisJsAPITicketKey := "acme:ticket",
      RedisAccessTokenKey := "acme:token" } rfl).2.1
    { Scheme := "https", Host := "", Path := "https://api.weixin.qq.com/cgi-bin/user/get",
      RawQuery := "" } "dial tcp: connection refused" rfl rfl

/-- Claim C10 as stated fails. When the round trip succeeds with the upstream status code
0, the response status is 200, not 0: the writer of gin ignores a code that is not
positive. When it succeeds with the upstream status code 99, there is no response with
that status either: the response writer panics on the code. -/
theorem upstream_status_counterexample :
    (∃ c out resp,
      serveProxy (sampleEnv emptyCache (sampleTransport 0)) 5 "acme" "/cgi-bin/user/get"
        sampleRequest = .ok c ∧
      c.trace = [Event.redisGet "acme:token", Event.roundTrip out] ∧
      (sampleEnv emptyCache (sampleTransport 0)).RoundTrip out = .ok resp ∧
      resp.StatusCode = 0 ∧ c.Writer.status = 200 ∧ c.Writer.sent = 200 ∧
      c.Writer.status ≠ resp.StatusCode) ∧
    (∃ a out resp,
      serveProxy (sampleEnv emptyCache (sampleTransport 99)) 5 "acme" "/cgi-bin/user/get"
        sampleRequest = .error a ∧
      a.ctx.trace = [Event.redisGet "acme:token", Event.roundTrip out] ∧
      (sampleEnv emptyCache (sampleTransport 99)).RoundTrip out = .ok resp ∧
      resp.StatusCode = 99 ∧ a.fault = Fault.invalidWriteHeaderCode) :=
  ⟨⟨_, _, _, rfl, rfl, rfl, rfl, rfl, rfl, by decide⟩, ⟨_, _, _, rfl, rfl, rfl, rfl, rfl⟩⟩

/-- Claim C2. Routing table completeness: for every tenant, subpath and query, the base URL
and the query that the switch of `proxy` produces are those of the documented row for the
subpath (first match on the exact subpath, the default row for every other subpath), the
query being the row's `Set` mutations applied to the client query with the tenant's id,
secret and cache values; no parameter outside the row's list is changed; and for a known
tenant whose target URL parses, the one request handed to the transport carries the
encoding of exactly that query, the request being served to its end unless the upstream
answers with a positive status code below 100 or above 999 (on which the response writer
panics, after the transport has been called). -/
theorem routing_table_complete (env : Env) (app : AppConfig) (path : String) (q : StrMap) :
    (routeSwitch env app path q).1 = (rowFor path).host ∧
    (routeSwitch env app path q).2.1 = applyMutation env app q (rowFor path).mutation ∧
    (∀ k, k ∉ (rowFor path).mutation.map Prod.fst →
      StrMap.lookup (routeSwitch env app path q).2.1 k = StrMap.lookup q k) ∧
    (defaultRouted path → rowFor path = defaultRow) ∧
    (∀ (n : Nat) (appid : String) (req : Request) (u : URL),
      GetApp env.Apps appid = .ok (some app) →
      env.Query req.URL.RawQuery = q →
      env.Parse ((rowFor path).host ++ path) = .ok u →
      (contextOf (serveProxy env (n + 5) appid path req)).trace.filter Event.isRoundTrip =
        [Event.roundTrip (outboundRequest env req u
          (applyMutation env app q (rowFor path).mutation))] ∧
      (∀ a, serveProxy env (n + 5) appid path req = .error a →
        a.fault = Fault.invalidWriteHeaderCode ∧
        ∃ resp, env.RoundTrip (outboundRequest env req u
            (applyMutation env app q (rowFor path).mutation)) = .ok resp ∧
          0 < resp.StatusCode ∧ (resp.StatusCode < 100 ∨ 999 < resp.StatusCode))) := by
  obtain ⟨h1, h2, h3⟩ := routeSwitch_rowFor env app path q
  refine ⟨h1, h2, h3, ?_, ?_⟩
  · rintro ⟨d1, d2, d3, d4, d5⟩
    simp [rowFor, routingTable, d1, d2, d3, d4, d5]
  · intro n appid req u hknown hq hparse
    subst hq
    rw [← h1] at hparse
    obtain ⟨ht, hf⟩ := serveProxy_sent env n appid path req app u hknown hparse
    rw [h2] at ht hf
    refine ⟨?_, hf⟩
    rw [ht, List.filter_append, routeSwitch_lookups]
    simp [Event.isRoundTrip]

/-- Claim C2 at the sample tenant and the subpath `/cgi-bin/gettoken`: the request goes
to the enterprise host with `corpid` and `corpsecret` set. -/
theorem routing_table_complete_witness :
    (contextOf (serveProxy (sampleEnv emptyCache failingTransport) 5 "acme"
        "/cgi-bin/gettoken" sampleRequest)).trace.filter Event.isRoundTrip =
      [Event.roundTrip (outboundRequest (sampleEnv emptyCache failingTransport)
        sampleRequest
        { Scheme := "https", Host := "",
          Path := "https://qyapi.weixin.qq.com/cgi-bin/gettoken", RawQuery := "" }
        (StrMap.Set (StrMap.Set [] "corpid" "acme") "corpsecret" "s3cret"))] :=
  ((routing_table_complete (sampleEnv emptyCache failingTransport)
    { ID := "acme", Secret := "s3cret", RedisJsAPITicketKey := "acme:ticket",
      RedisAccessTokenKey := "acme:token" } "/cgi-bin/gettoken" []).2.2.2.2 0 "acme"
    sampleRequest
    { Scheme := "https", Host := "", Path := "https://qyapi.weixin.qq.com/cgi-bin/gettoken",
      RawQuery := "" } rfl rfl rfl).1

end Proxy

/-! ## The guard in front of both servers -/

open Gin

/-- Claim C6. Unknown-tenant guard: for a tenant id that is not in the directory, the
inbound GET and POST chains and the outbound proxy chain end with status 404, nothing
written, the chain aborted, and an empty trace (no body read, no crypter built, no cache
lookup, no round trip); for a tenant id that is in the directory, `checkAppID` is exactly
`ctx.Next()` on the unchanged context. The request is served to its end for every fuel
from 3 on. -/
theorem unknown_tenant_guard (genv : Gateway.Env) (penv : Proxy.Env) (n : Nat)
    (appid path : String) (req : Request) :
    (Gateway.ExistAppID genv.Apps appid = .ok false →
      (∃ c, Gateway.serveGET genv (n + 3) appid req = .ok c ∧
        c.Writer.status = 404 ∧ c.Writer.body = "" ∧ c.Writer.header = [] ∧
        c.trace = [] ∧ abortIndex ≤ c.index) ∧
      (∃ c, Gateway.servePOST genv (n + 3) appid req = .ok c ∧
        c.Writer.status = 404 ∧ c.Writer.body = "" ∧ c.Writer.header = [] ∧
        c.trace = [] ∧ abortIndex ≤ c.index)) ∧
    (Proxy.ExistAppID penv.Apps appid = .ok false →
      ∃ c, Proxy.serveProxy penv (n + 3) appid path req = .ok c ∧
        c.Writer.status = 404 ∧ c.Writer.body = "" ∧ c.Writer.header = [] ∧
        c.trace = [] ∧ abortIndex ≤ c.index) ∧
    (Gateway.ExistAppID genv.Apps appid = .ok true →
      ∀ (H : Type) (next : Context H → Result H) (ctx : Context H),
        ctx.Param "appid" = appid → Gateway.checkAppID genv next ctx = next ctx) ∧
    (Proxy.ExistAppID penv.Apps appid = .ok true →
      ∀ (H : Type) (next : Context H → Result H) (ctx : Context H),
        ctx.Param "appid" = appid → Proxy.checkAppID penv next ctx = next ctx) := by
  refine ⟨?_, ?_, ?_, ?_⟩
  · intro hno
    have key : ∀ h : Gateway.Handler,
        ∃ c, Gin.serve (Gateway.handle genv) (n + 3) [Gateway.Handler.checkAppID, h]
            [("appid", appid)] req = .ok c ∧
          c.Writer.status = 404 ∧ c.Writer.body = "" ∧ c.Writer.header = [] ∧
          c.trace = [] ∧ abortIndex ≤ c.index := by
      intro h
      have := Gin.serve_abort (Gateway.handle genv) n Gateway.Handler.checkAppID [h]
        [("appid", appid)] req
        (((freshContext [Gateway.Handler.checkAppID, h] [("appid", appid)] req 0).Status
          404).Abort)
        (by simp [Gateway.handle, Gateway.checkAppID, hno])
        (by simp [Context.Abort, abortIndex])
        (by simp [Context.Abort])
      rw [finishRequest_final _ rfl rfl
        (Or.inr (by simp [Context.Abort, Status_status]))] at this
      refine ⟨_, this, ?_, ?_, ?_, ?_, ?_⟩
      · simp [Context.Abort, Status_status]
      · simp [Context.Abort, freshContext]
      · simp [Context.Abort, freshContext]
      · simp [Context.Abort, freshContext]
      · simp [Context.Abort, abortIndex]
    exact ⟨key Gateway.Handler.AcceptGET, key Gateway.Handler.AcceptPOST⟩
  · exact Proxy.proxy_guard_unknown penv n appid path req
  · intro hyes H next ctx hp
    simp [Gateway.checkAppID, hp, hyes]
  · intro hyes H next ctx hp
    simp [Proxy.checkAppID, hp, hyes]

/-- Claim C6 at the sample environments and the tenant id `unknown`. -/
theorem unknown_tenant_guard_witness :
    (∃ c, Gateway.servePOST Gateway.sampleEnv 3 "unknown"
        (Gateway.sampleRequest "POST" "" "beta") = .ok c ∧
      c.Writer.status = 404 ∧ c.Writer.body = "" ∧ c.Writer.header = [] ∧
      c.trace = [] ∧ abortIndex ≤ c.index) ∧
    (∃ c, Proxy.serveProxy (Proxy.sampleEnv Proxy.emptyCache (Proxy.sampleTransport 200)) 3
        "unknown" "/anything" Proxy.sampleRequest = .ok c ∧
      c.Writer.status = 404 ∧ c.Writer.body = "" ∧ c.Writer.header = [] ∧
      c.trace = [] ∧ abortIndex ≤ c.index) :=
  ⟨((unknown_tenant_guard Gateway.sampleEnv
      (Proxy.sampleEnv Proxy.emptyCache (Proxy.sampleTransport 200)) 0 "unknown" "/anything"
      (Gateway.sampleRequest "POST" "" "beta")).1 rfl).2,
   (unknown_tenant_guard Gateway.sampleEnv
      (Proxy.sampleEnv Proxy.emptyCache (Proxy.sampleTransport 200)) 0 "unknown" "/anything"
      Proxy.sampleRequest).2.1 rfl⟩

end GoWechat
